import Mathlib

/-!
Shallow embedding of the browser-test-reporter scripts
(`scripts/run_tests.py` and `scripts/parse_docx.py`) and proofs of the
specification claims about them.

Conventions of the embedding:
* Python `dict`-shaped records (Step, StepResult, test cases, summary) become
  Lean structures whose string fields default to `""`, mirroring
  `dict.get(key, "")` access in the source.
* The live Playwright page is modelled as a pure oracle (`PageO`): every
  browser primitive the scripts invoke is a field returning `Except String`
  (an exception with its text, or success).  One oracle describes one
  environment; the scripts' control flow over those primitives is translated
  literally.
* Wall-clock durations, timestamps, video files and stdout printing are
  environment I/O with no bearing on the claims; those fields are omitted
  from the result records.
* Python `re` patterns are embedded through a small backtracking matcher
  (`Rx`/`matchRx`) with ordered alternation, greedy/lazy single-character
  repetition and capture groups - the fragment of regex syntax the scripts
  use.  Character classes `\s`, `\d`, `\w` are modelled on the character
  sets that occur in the scripts' bilingual inputs (ASCII plus CJK and
  full-width punctuation).
-/

/-! ## Basic string helpers (Python `str` operations) -/

/-- Python whitespace for `str.strip` and the regex class `\s`
(ASCII whitespace plus NBSP and the full-width ideographic space). -/
def isPySpace (c : Char) : Bool :=
  c == ' ' || c == '\t' || c == '\n' || c == '\r' ||
  c == '\x0b' || c == '\x0c' || c == ' ' || c == '　'

/-- Strip characters satisfying `p` from both ends of a character list. -/
def stripWithL (p : Char → Bool) (l : List Char) : List Char :=
  ((l.dropWhile p).reverse.dropWhile p).reverse

/-- Model of `str.strip()` on character lists. -/
def stripL (l : List Char) : List Char := stripWithL isPySpace l

/-- Model of `str.strip()` on strings. -/
def pyStripS (s : String) : String := String.mk (stripL s.data)

/-- Model of `str.strip(chars)` with an explicit character set. -/
def pyStripChars (cs : List Char) (s : String) : String :=
  String.mk (stripWithL (fun c => cs.contains c) s.data)

/-- Model of `re.split` on a single-character class: split, keeping empty pieces
(Python keeps empty strings between adjacent separators). -/
def splitChars (isSep : Char → Bool) : List Char → List (List Char)
  | [] => [[]]
  | c :: rest =>
    if isSep c then [] :: splitChars isSep rest
    else
      match splitChars isSep rest with
      | [] => [[c]]
      | h :: t => (c :: h) :: t

/-- Model of `str.split`-style wrapper on strings. -/
def pySplit (isSep : Char → Bool) (s : String) : List String :=
  (splitChars isSep s.data).map String.mk

/-- Model of `sep.join(parts)` on character lists. -/
def joinSep (sep : List Char) : List (List Char) → List Char
  | [] => []
  | [p] => p
  | p :: q :: rest => p ++ sep ++ joinSep sep (q :: rest)

/-- Model of `str.replace(old, new)` for single characters. -/
def chReplace (old new : Char) (s : String) : String :=
  String.mk (s.data.map (fun c => if c == old then new else c))

/-- Model of `"{n:02d}"`: zero-pad a natural number to two digits. -/
def pad2 (n : Nat) : String := if n < 10 then "0" ++ toString n else toString n

/-- Model of `"{n:03d}"`: zero-pad a natural number to three digits. -/
def pad3 (n : Nat) : String :=
  if n < 10 then "00" ++ toString n
  else if n < 100 then "0" ++ toString n
  else toString n

/-- Model of `int(s)` for digit strings, with the default the scripts use elsewhere. -/
def digitsToNat (s : String) : Nat :=
  s.data.foldl (fun n c => n * 10 + (c.toNat - 48)) 0

/-- Model of `str.isdigit()` (ASCII digits). -/
def isDigitStr (s : String) : Bool := s.data ≠ [] && s.data.all Char.isDigit

/-- Model of `str.startswith(pre)` (list-level, so that it reduces in the kernel). -/
def startsWithS (s pre : String) : Bool := pre.data.isPrefixOf s.data

/-- Model of `str.lower()` (ASCII case folding, character-wise). -/
def toLowerS (s : String) : String := String.mk (s.data.map Char.toLower)

/-- Model of `s[n:]` by characters. -/
def dropS (s : String) (n : Nat) : String := String.mk (s.data.drop n)

/-- Model of `sep.join(parts)` on strings. -/
def joinS (sep : String) : List String → String
  | [] => ""
  | [p] => p
  | p :: q :: rest => p ++ sep ++ joinS sep (q :: rest)

/-- Substring containment on character lists (Python `needle in hay`). -/
def subStr (needle : List Char) : List Char → Bool
  | [] => needle.isPrefixOf []
  | c :: rest => needle.isPrefixOf (c :: rest) || subStr needle rest

/-! ## Data model (wire-form records of the scripts) -/

/-- Canonical Step record, `{action, target, value, name?}`.
Absent dict keys read through `.get(key, "")` are the `""` defaults;
`name` is optional because `step.get("name", <computed>)` distinguishes
absence. -/
structure Step where
  action : String := ""
  target : String := ""
  value : String := ""
  name : Option String := none
deriving DecidableEq, Repr

/-- StepResult record produced by `execute_step` / the skip branch. -/
structure StepResult where
  index : Nat
  action : String
  target : String
  value : String
  status : String
  screenshot : Option String
  error : Option String
deriving DecidableEq, Repr

/-- TestCase record as read from `test_cases.json`. -/
structure TestCase where
  id : String := ""
  name : String := ""
  description : String := ""
  steps : List Step := []
  expected_result : String := ""
deriving DecidableEq, Repr

/-- Per-case result record (`duration_seconds` and `video` are wall-clock /
file-system outputs, omitted from the embedding). -/
structure CaseResult where
  id : String
  name : String
  status : String
  steps : List StepResult
  error : Option String
deriving DecidableEq, Repr

/-- Run summary (timestamps and duration omitted: environment I/O). -/
structure Summary where
  total : Nat
  passed : Nat
  failed : Nat
  skipped : Nat
deriving DecidableEq, Repr

/-! ## Page oracle

A `PageO` fixes, for one environment, the outcome of every Playwright
primitive the scripts call: `.error e` models the call raising an exception
with text `e`, `.ok` models success.  `count`, `url` and `title` are the
non-raising query primitives. -/

structure PageO where
  gotoR : String → Except String Unit
  waitLoad : String → Nat → Except String Unit
  clickR : String → Nat → Nat → Except String Unit
  countR : String → Nat
  fillR : String → String → Nat → Except String Unit
  waitVis : String → Nat → Except String Unit
  selOptR : String → String → Nat → Except String Unit
  hoverR : String → Nat → Except String Unit
  waitT : Nat → Except String Unit
  evalJs : String → Except String Unit
  innerTextR : String → Nat → Except String String
  urlR : String
  titleR : String
  shotR : String → Except String Unit

/-! ## `_selector_or_text` -/

/-- Model of `_HTML_TAGS` from run_tests.py. -/
def htmlTags : List String :=
  ["body", "html", "head", "main", "header", "footer", "nav",
   "section", "article", "div", "span", "a", "p", "ul", "li",
   "form", "input", "button", "select", "textarea", "table",
   "tr", "td", "th", "h1", "h2", "h3", "h4", "h5", "h6", "img"]

/-- CSS-special characters probed by `re.search(r"[#\[\].:>+~()]", target)`. -/
def cssSpecial : List Char := ['#', '[', ']', '.', ':', '>', '+', '~', '(', ')']

/-- Model of `_selector_or_text` from run_tests.py. -/
def selText (target : String) : String :=
  if startsWithS target "text=" || startsWithS target "role=" ||
     startsWithS target "css=" || startsWithS target "#" ||
     startsWithS target "." || startsWithS target "[" ||
     startsWithS target "//" || startsWithS target "xpath=" then
    (if startsWithS target "css=" then dropS target 4 else target)
  else if htmlTags.contains (toLowerS target) then target
  else if target.data.any (fun c => cssSpecial.contains c) then target
  else "text=" ++ target

/-! ## `execute_step` -/

/-- Name of the per-step audit screenshot file (`{tc_id}_step_{idx:02d}_{action}.png`). -/
def shotName (tcid : String) (idx : Nat) (action : String) : String :=
  tcid ++ "_step_" ++ pad2 idx ++ "_" ++ action ++ ".png"

/-- Name of the failure screenshot file (`{tc_id}_step_{idx:02d}_FAIL.png`). -/
def failShotName (tcid : String) (idx : Nat) : String :=
  tcid ++ "_step_" ++ pad2 idx ++ "_FAIL.png"

/-- The click retry loop: probe `locator.nth(i)` for `i` in
`range(1, min(count, 5))`, 3s timeout each; `true` iff one click succeeded. -/
def tryClickList (page : PageO) (sel : String) : List Nat → Bool
  | [] => false
  | i :: rest =>
    match page.clickR sel i 3000 with
    | .ok _ => true
    | .error _ => tryClickList page sel rest

/-- The `click` branch of `execute_step`: first match with 10s timeout; on
failure probe subsequent matches and re-raise the original error if none
clicks. -/
def clickSeq (page : PageO) (sel : String) : Except String Unit :=
  match page.clickR sel 0 10000 with
  | .ok _ => .ok ()
  | .error e0 =>
    let cnt := page.countR sel
    if tryClickList page sel ((List.range (min cnt 5)).drop 1) then .ok ()
    else .error e0

/-- One candidate of the `fill` loop: visibility probe (1.5s) then fill (5s). -/
def fillCandidate (page : PageO) (sel value : String) : Except String Unit := do
  page.waitVis sel 1500
  page.fillR sel value 5000

/-- The `fill` candidate loop: `true` iff some candidate succeeded. -/
def tryFillList (page : PageO) (value : String) : List String → Bool
  | [] => false
  | sel :: rest =>
    match fillCandidate page sel value with
    | .ok _ => true
    | .error _ => tryFillList page value rest

/-- The `fill` branch of `execute_step`: try each comma-separated candidate
selector; if all fail, fall back to the resolved original target (10s). -/
def fillSeq (page : PageO) (target value : String) : Except String Unit :=
  let selectors := (pySplit (fun c => c == ',') target).map pyStripS
  if tryFillList page value selectors then .ok ()
  else page.fillR (selText target) value 10000

/-- The action dispatch inside `execute_step`'s `try` block.  Returns
`some file` when the branch early-returns with a recorded screenshot (the
`screenshot` action), `none` when control falls through to the generic
post-action screenshot. -/
def actionDispatch (page : PageO) (step : Step) (dir tcid : String)
    (idx : Nat) : Except String (Option String) :=
  let action := step.action
  let target := step.target
  let value := step.value
  if action == "goto" then do
    page.gotoR (if startsWithS target "http" then target else target)
    page.waitLoad "networkidle" 15000
    pure none
  else if action == "click" then do
    clickSeq page (selText target)
    page.waitLoad "networkidle" 8000
    pure none
  else if action == "fill" then do
    fillSeq page target value
    pure none
  else if action == "select" then do
    page.selOptR (selText target) value 10000
    pure none
  else if action == "hover" then do
    page.hoverR (selText target) 10000
    pure none
  else if action == "wait" then do
    page.waitT (if isDigitStr target then digitsToNat target else 1000)
    pure none
  else if action == "scroll" then do
    let px := if isDigitStr target then digitsToNat target else 500
    page.evalJs ("window.scrollBy(0, " ++ toString px ++ ")")
    page.waitT 500
    pure none
  else if action == "screenshot" then do
    let nm := step.name.getD (tcid ++ "_step_" ++ pad2 idx ++ "_" ++ action)
    page.shotR (dir ++ "/" ++ nm ++ ".png")
    pure (some (nm ++ ".png"))
  else if action == "assert_visible" then do
    page.waitVis (selText target) 10000
    pure none
  else if action == "assert_text" then do
    let actual ← page.innerTextR (selText target) 10000
    if subStr (toLowerS value).data (toLowerS actual).data then pure none
    else .error ("Expected '" ++ value ++ "' in '" ++ actual ++ "'")
  else if action == "assert_url" then
    if subStr target.data page.urlR.data then pure none
    else .error ("Expected URL to contain '" ++ target ++ "', got '" ++ page.urlR ++ "'")
  else if action == "assert_title" then
    if subStr (toLowerS target).data (toLowerS page.titleR).data then pure none
    else .error ("Expected title to contain '" ++ target ++ "', got '" ++ page.titleR ++ "'")
  else
    pure none

/-- The whole `try` block of `execute_step`: dispatch the action, then (unless
the `screenshot` action already returned) take the generic post-action
screenshot.  Yields the recorded screenshot file name, or the exception text. -/
def tryBlock (page : PageO) (step : Step) (dir tcid : String) (idx : Nat) :
    Except String String := do
  let early ← actionDispatch page step dir tcid idx
  match early with
  | some file => pure file
  | none => do
    page.shotR (dir ++ "/" ++ shotName tcid idx step.action)
    pure (shotName tcid idx step.action)

/-- Model of `execute_step` from run_tests.py: run the `try` block; on any exception
record a failed StepResult with the error text, after a best-effort
failure screenshot whose own failure is swallowed. -/
def execute_step (page : PageO) (step : Step) (dir tcid : String)
    (idx : Nat) : StepResult :=
  match tryBlock page step dir tcid idx with
  | .ok shot =>
    { index := idx, action := step.action, target := step.target,
      value := step.value, status := "passed", screenshot := some shot,
      error := none }
  | .error e =>
    { index := idx, action := step.action, target := step.target,
      value := step.value, status := "failed",
      screenshot :=
        match page.shotR (dir ++ "/" ++ failShotName tcid idx) with
        | .ok _ => some (failShotName tcid idx)
        | .error _ => none,
      error := some e }

/-! ## `run_test_case` -/

/-- Model of `str.rstrip("/")`. -/
def rstripSlash (s : String) : String :=
  String.mk (((s.data.reverse.dropWhile (fun c => c == '/'))).reverse)

/-- Model of `str.lstrip("/")`. -/
def lstripSlash (s : String) : String :=
  String.mk (s.data.dropWhile (fun c => c == '/'))

/-- The goto-target resolution applied per step in `run_test_case`:
absolute URLs kept, root-relative joined to the base URL, anything else
replaced by the base URL root. -/
def resolveStep (base : String) (s : Step) : Step :=
  if s.action == "goto" then
    if startsWithS s.target "http" then s
    else if startsWithS s.target "/" then
      { s with target := rstripSlash base ++ "/" ++ lstripSlash s.target }
    else
      { s with target := rstripSlash base ++ "/" }
  else s

/-- Model of `any(s.get("action") == "goto" for s in steps)`. -/
def hasGoto (steps : List Step) : Bool := steps.any (fun s => s.action == "goto")

/-- The resolved step list of `run_test_case`: implicit leading goto when no
goto is present and a base URL is configured, then per-step resolution. -/
def resolveSteps (base : String) (steps : List Step) : List Step :=
  (if ¬hasGoto steps ∧ base ≠ "" then
    [{ action := "goto", target := base }] else []) ++
  steps.map (resolveStep base)

/-- The eight actions the cascading-skip branch tests
(`click/fill/select/hover` and the four assertions). -/
def interactionActs : List String :=
  ["click", "fill", "select", "hover",
   "assert_visible", "assert_text", "assert_url", "assert_title"]

/-- The four actions whose failure sets `interaction_failed`. -/
def triggerActs : List String := ["click", "fill", "select", "hover"]

/-- Python truthiness of `tc_error` in `if not tc_error:` - unset when
`None` or the empty string. -/
def pyFalsyOpt (err : Option String) : Bool :=
  match err with
  | none => true
  | some s => s == ""

/-- The StepResult appended for a skipped step. -/
def skipRecord (idx : Nat) (step : Step) : StepResult :=
  { index := idx, action := step.action, target := step.target,
    value := step.value, status := "skipped", screenshot := none,
    error := some "Skipped: prior step failed" }

/-- The step loop of `run_test_case`, threading the step index, the
`interaction_failed` flag, `tc_status` and `tc_error`.  Returns the
StepResult list and the final status / error. -/
def stepLoop (page : PageO) (dir tcid : String) :
    List Step → Nat → Bool → String → Option String →
    List StepResult × String × Option String
  | [], _, _, st, err => ([], st, err)
  | step :: rest, idx, iflag, st, err =>
    if iflag && interactionActs.contains step.action then
      let out := stepLoop page dir tcid rest (idx + 1) iflag st err
      (skipRecord idx step :: out.1, out.2)
    else
      let r := execute_step page step dir tcid idx
      if r.status == "failed" then
        let out := stepLoop page dir tcid rest (idx + 1)
          (if triggerActs.contains step.action then true else iflag) "failed"
          (if pyFalsyOpt err then r.error else err)
        (r :: out.1, out.2)
      else
        let out := stepLoop page dir tcid rest (idx + 1) iflag st err
        (r :: out.1, out.2)

/-- Model of `run_test_case` from run_tests.py (page/session lifecycle, printing,
video and timing are environment I/O and are not part of the record). -/
def runTestCase (page : PageO) (dir base : String) (tc : TestCase) : CaseResult :=
  let rsteps := resolveSteps base tc.steps
  let out := stepLoop page dir tc.id rsteps 0 false "passed" none
  { id := tc.id, name := tc.name, status := out.2.1, steps := out.1,
    error := out.2.2 }

/-! ## `main` of run_tests.py: filter and summary -/

/-- The `--filter` handling of `main`. -/
def applyFilter (filt : Option String) (cases : List TestCase) : List TestCase :=
  match filt with
  | none => cases
  | some f => cases.filter (fun tc => tc.id == f)

/-- The summary fold of `main` over the per-case results. -/
def buildSummary (rs : List CaseResult) : Summary :=
  { total := rs.length,
    passed := (rs.filter (fun r => r.status == "passed")).length,
    failed := (rs.filter (fun r => r.status == "failed")).length,
    skipped := (rs.filter (fun r => r.status == "skipped")).length }

/-- The run: one `run_test_case` per (filtered) test case, in order. -/
def runAll (page : PageO) (dir base : String) (cases : List TestCase) :
    List CaseResult :=
  cases.map (runTestCase page dir base)

/-! ## A small regex matcher

`Rx` covers exactly the fragment of `re` syntax the scripts use: ordered
alternation with backtracking, optional parts, greedy and lazy repetition of
single-character classes, capture groups, literals (case-insensitive when the
pattern carries `re.I`) and the end anchor.  `pattern.match` anchors at the
start of the text; `pattern.search` tries successive start positions. -/

inductive Rx : Type where
  /-- Literal text; `ci` true for `re.I` patterns (ASCII case folding). -/
  | lit (ci : Bool) (s : String) : Rx
  /-- One character of a class. -/
  | cls (f : Char → Bool) : Rx
  | seq (a b : Rx) : Rx
  /-- Ordered alternation: `a` preferred. -/
  | alt (a b : Rx) : Rx
  /-- Greedy `a?`. -/
  | opt (a : Rx) : Rx
  /-- Model of `f*` / `f+` / lazy variants: repetition of a character class with a
  minimum count; `lazy` prefers the shortest match. -/
  | rep (f : Char → Bool) (mn : Nat) (lazy : Bool) : Rx
  /-- Capture group `n` (Python group numbering, 1-based). -/
  | grp (n : Nat) (a : Rx) : Rx
  /-- Model of `$` (end of input). -/
  | eos : Rx

/-- Captures: most recent binding of each group first. -/
abbrev Caps := List (Nat × String)

def setCap (caps : Caps) (n : Nat) (v : String) : Caps := (n, v) :: caps

def getCap (caps : Caps) (n : Nat) : Option String :=
  (caps.find? (fun p => p.1 == n)).map (·.2)

/-- A successful match: the unconsumed suffix and the captures. -/
structure MRes where
  rest : List Char
  caps : Caps
deriving Repr

/-- Case-folded literal matching. -/
def litMatch (ci : Bool) : List Char → List Char → Option (List Char)
  | [], s => some s
  | _ :: _, [] => none
  | c :: cs, d :: ds =>
    if (if ci then c.toLower == d.toLower else c == d) then litMatch ci cs ds
    else none

/-- Try a continuation on a list of candidate suffixes, first success wins. -/
def tryRests (k : List Char → Option MRes) : List (List Char) → Option MRes
  | [] => none
  | s :: rest =>
    match k s with
    | some r => some r
    | none => tryRests k rest

/-- The backtracking matcher in continuation style, anchored at the start of
`s`.  `k` receives the unconsumed suffix and the captures. -/
def matchRx : Rx → List Char → Caps → (List Char → Caps → Option MRes) → Option MRes
  | .lit ci l, s, caps, k =>
    match litMatch ci l.data s with
    | some rest => k rest caps
    | none => none
  | .cls f, s, caps, k =>
    match s with
    | [] => none
    | c :: rest => if f c then k rest caps else none
  | .seq a b, s, caps, k =>
    matchRx a s caps (fun s2 c2 => matchRx b s2 c2 k)
  | .alt a b, s, caps, k =>
    match matchRx a s caps k with
    | some r => some r
    | none => matchRx b s caps k
  | .opt a, s, caps, k =>
    match matchRx a s caps k with
    | some r => some r
    | none => k s caps
  | .rep f mn lazy, s, caps, k =>
    let m := (s.takeWhile f).length
    if m < mn then none
    else
      let ns := (List.range (m + 1 - mn)).map (fun i => mn + i)
      tryRests (fun rest => k rest caps)
        ((if lazy then ns else ns.reverse).map (fun n => s.drop n))
  | .grp n a, s, caps, k =>
    matchRx a s caps (fun rest c2 =>
      k rest (setCap c2 n (String.mk (s.take (s.length - rest.length)))))
  | .eos, s, caps, k =>
    match s with
    | [] => k [] caps
    | _ :: _ => none

/-- Model of `pattern.match(text)`: anchored match at the start. -/
def reMatch (r : Rx) (s : String) : Option MRes :=
  matchRx r s.data [] (fun rest caps => some ⟨rest, caps⟩)

/-- Model of `pattern.search` on a character list: try successive start positions,
returning the matched suffix position together with the match. -/
def searchFromL (r : Rx) : List Char → Option (List Char × MRes)
  | [] =>
    match matchRx r [] [] (fun rest caps => some ⟨rest, caps⟩) with
    | some res => some ([], res)
    | none => none
  | c :: rest =>
    match matchRx r (c :: rest) [] (fun rest2 caps => some ⟨rest2, caps⟩) with
    | some res => some (c :: rest, res)
    | none => searchFromL r rest

/-- Model of `pattern.search(text)` as a Boolean. -/
def reSearchB (r : Rx) (s : String) : Bool := (searchFromL r s.data).isSome

/-- Captures of the leftmost `pattern.search(text)` match. -/
def reSearchCaps (r : Rx) (s : String) : Option Caps :=
  (searchFromL r s.data).map (fun p => p.2.caps)

/-- Text matched by the leftmost `pattern.search(text)` match (used for
`findall(...)[0]`). -/
def reSearchText (r : Rx) (s : String) : Option String :=
  (searchFromL r s.data).map (fun p =>
    String.mk (p.1.take (p.1.length - p.2.rest.length)))

/-- Model of `pattern.sub("", text)` for a `^`-anchored pattern: drop the matched
prefix (such a pattern matches at most once, at position 0). -/
def anchoredSubEmpty (r : Rx) (s : String) : String :=
  match reMatch r s with
  | some res => String.mk res.rest
  | none => s

/-- Global `pattern.sub(r"\1", text)`: replace every non-overlapping match,
left to right, by its first capture group.  Fuel-indexed to make the
left-to-right scan structural; `fuel = length + 1` always suffices because
every iteration consumes at least one character. -/
def reSubG1 (r : Rx) : Nat → List Char → List Char
  | 0, s => s
  | fuel + 1, s =>
    match matchRx r s [] (fun rest caps => some ⟨rest, caps⟩) with
    | some res =>
      if s.length - res.rest.length == 0 then
        match s with
        | [] => []
        | c :: cs => c :: reSubG1 r fuel cs
      else ((getCap res.caps 1).getD "").data ++ reSubG1 r fuel res.rest
    | none =>
      match s with
      | [] => []
      | c :: cs => c :: reSubG1 r fuel cs

/-- String wrapper for `reSubG1`. -/
def reSubAll1 (r : Rx) (s : String) : String :=
  String.mk (reSubG1 r (s.data.length + 1) s.data)

/-! ### Character classes and combinators used by the patterns -/

/-- Regex `.` (any character but newline). -/
def pyDot (c : Char) : Bool := c != '\n'

/-- Regex `\d` (ASCII digits; the scripts only meet ASCII step numbers). -/
def pyDigit (c : Char) : Bool := c.isDigit

/-- Regex `\w`: ASCII word characters plus CJK ideographs (the word
characters occurring in the scripts' bilingual inputs). -/
def pyWord (c : Char) : Bool :=
  c.isAlphanum || c == '_' || (0x4E00 ≤ c.toNat && c.toNat ≤ 0x9FFF)

def rxFail : Rx := .cls (fun _ => false)

/-- Ordered alternation over case-insensitive literals (`(?:a|b|...)`). -/
def oneOf (l : List String) : Rx :=
  match l.map (Rx.lit true) with
  | [] => rxFail
  | x :: xs => xs.foldl .alt x

/-- Sequence a nonempty list of parts. -/
def seqs (l : List Rx) : Rx :=
  match l with
  | [] => .lit true ""
  | x :: xs => xs.foldl .seq x

def ws0 : Rx := .rep isPySpace 0 false
def ws1 : Rx := .rep isPySpace 1 false
/-- Model of `(.+)` as capture group `n`. -/
def dotPlus (n : Nat) : Rx := .grp n (.rep pyDot 1 false)
/-- Model of `(.+?)` as capture group `n`. -/
def dotPlusL (n : Nat) : Rx := .grp n (.rep pyDot 1 true)
/-- Model of `(.*)` as capture group `n`. -/
def dotStar (n : Nat) : Rx := .grp n (.rep pyDot 0 false)

/-- Number of capture groups in a pattern (`len(m.groups())`). -/
def numGroups : Rx → Nat
  | .lit _ _ => 0
  | .cls _ => 0
  | .seq a b => numGroups a + numGroups b
  | .alt a b => numGroups a + numGroups b
  | .opt a => numGroups a
  | .rep _ _ _ => 0
  | .grp _ a => numGroups a + 1
  | .eos => 0

/-! ## parse_docx.py: regex patterns -/

/-- Quote openers `[「「"']` (the source class repeats `「`). -/
def openQuote (c : Char) : Bool := c == '「' || c == '"' || c == '\''

/-- Quote closers `[」」"']`. -/
def closeQuote (c : Char) : Bool := c == '」' || c == '"' || c == '\''

/-- Model of `_TC_HEADER_RE`: `^#{1,4}\s*(?:TC[-\s]?(\d+)[:\s]?\s*)?(.+)$`, `re.I`. -/
def tcHeaderRx : Rx :=
  seqs [.lit true "#", .opt (.lit true "#"), .opt (.lit true "#"), .opt (.lit true "#"),
        ws0,
        .opt (seqs [.lit true "TC",
                    .opt (.cls (fun c => c == '-' || isPySpace c)),
                    .grp 1 (.rep pyDigit 1 false),
                    .opt (.cls (fun c => c == ':' || isPySpace c)),
                    ws0]),
        dotPlus 2, .eos]

/-- Model of `_NUMBERED_STEP_RE`: `^\d+[\.\)]\s+(.+)`. -/
def numberedStepRx : Rx :=
  seqs [.rep pyDigit 1 false, .cls (fun c => c == '.' || c == ')'), ws1, dotPlus 1]

/-- Model of `_BULLET_STEP_RE`: `^[-*]\s+(.+)`. -/
def bulletStepRx : Rx :=
  seqs [.cls (fun c => c == '-' || c == '*'), ws1, dotPlus 1]

/-- Model of `_EXPECTED_RE`: `(?:expected|預期結果|期望|result|verify|驗證)[\s:：]+(.+)`, `re.I`. -/
def expectedRx : Rx :=
  seqs [oneOf ["expected", "預期結果", "期望", "result", "verify", "驗證"],
        .rep (fun c => isPySpace c || c == ':' || c == '：') 1 false,
        dotPlus 1]

/-- Model of `_URL_RE`: `https?://[^\s"'>]+` (no `re.I`). -/
def urlRx : Rx :=
  seqs [.lit false "http", .opt (.lit false "s"), .lit false "://",
        .rep (fun c => ¬(isPySpace c || c == '"' || c == '\'' || c == '>')) 1 false]

/-- Model of `_SEARCH_INPUT_SELECTORS` (one comma-joined disjunction string). -/
def searchInputSelectors : String :=
  "input[name*=keyword], input[name*=Keyword], " ++
  "input[placeholder*=檢索], input[placeholder*=搜尋], input[placeholder*=查詢], " ++
  "input.ui-autocomplete-input, input[type=search], " ++
  "input[name*=search], input[name*=query], #search, .search-input"

/-- Model of `_STEP_ACTION_PATTERNS`, in declared order, each with its action tag.
Every pattern carries `re.I`. -/
def stepActionPatterns : List (Rx × String) :=
  [ -- goto / navigate
    (seqs [.alt (.lit true "navigate") (seqs [.lit true "go", ws0, .lit true "to"]),
           ws1, dotPlus 1], "goto"),
    (seqs [oneOf ["開啟", "前往", "瀏覽", "進入", "連到", "連至", "造訪", "訪問", "到"],
           ws0, dotPlus 1], "goto"),
    -- click
    (seqs [.lit true "click", ws1, dotPlus 1], "click"),
    (seqs [oneOf ["按下", "點擊", "點選", "按", "點", "選按", "勾選", "展開", "收合", "切換", "按鈕"],
           ws0, dotPlus 1], "click"),
    -- fill with explicit target
    (seqs [oneOf ["type", "enter", "input", "fill"], ws1,
           .opt (.cls (fun c => c == '"' || c == '\'')), dotPlusL 1,
           .opt (.cls (fun c => c == '"' || c == '\'')), ws1,
           .lit true "in", .opt (.lit true "to"), ws1, dotPlus 2], "fill"),
    (seqs [oneOf ["輸入", "填入", "填寫", "鍵入"], ws0,
           .opt (.cls openQuote), dotPlusL 1, .opt (.cls closeQuote), ws0,
           oneOf ["於", "到", "在", "至"], ws0, dotPlus 2], "fill"),
    -- fill without explicit target ("fill as search")
    (seqs [oneOf ["輸入", "填入", "填寫", "鍵入"], ws0,
           .opt (.cls openQuote), dotPlusL 1, .opt (.cls closeQuote), ws0,
           oneOf ["關鍵字", "搜尋", "查詢", "字串"]], "fill_search"),
    -- select
    (seqs [.lit true "select", ws1,
           .opt (.cls (fun c => c == '"' || c == '\'')), dotPlusL 1,
           .opt (.cls (fun c => c == '"' || c == '\'')), ws1,
           .alt (.lit true "from") (.lit true "in"), ws1, dotPlus 2], "select"),
    (seqs [oneOf ["選擇", "選取", "下拉選"], ws0,
           .opt (.cls openQuote), dotPlusL 1, .opt (.cls closeQuote), ws0,
           oneOf ["於", "在", "從"], ws0, dotPlus 2], "select"),
    -- hover
    (seqs [.lit true "hover", ws1, dotPlus 1], "hover"),
    (seqs [oneOf ["滑鼠移至", "移至", "移到", "懸停"], ws0, dotPlus 1], "hover"),
    -- assert_visible
    (seqs [oneOf ["verify", "assert", "check"], ws1, dotPlusL 1, ws1,
           .alt (seqs [.lit true "is", ws1, .lit true "visible"])
                (seqs [.lit true "appear", .opt (.lit true "s")])], "assert_visible"),
    (seqs [oneOf ["確認", "驗證", "確保", "檢查"], ws0, dotPlusL 1, ws0,
           oneOf ["可見", "存在", "出現", "顯示", "呈現"]], "assert_visible"),
    -- assert_url
    (seqs [oneOf ["verify", "assert", "check", "確認", "驗證"], ws0,
           oneOf ["url", "網址", "連結"], ws0,
           .opt (oneOf ["is", "contains", "contain", "包含", "為"]), ws0,
           dotPlus 1], "assert_url"),
    -- assert_text
    (seqs [oneOf ["verify", "assert", "check", "確認", "驗證"], ws0,
           oneOf ["文字", "text", "內容"], ws0,
           .opt (oneOf ["is", "contains", "contain", "包含", "為"]), ws0,
           dotPlus 1], "assert_text"),
    -- wait
    (seqs [oneOf ["wait", "等待"], ws0, .grp 1 (.rep pyDigit 1 false)], "wait"),
    -- screenshot
    (seqs [oneOf ["screenshot", "截圖", "擷圖", "截取畫面"], ws0, dotStar 1], "screenshot"),
    -- scroll
    (seqs [oneOf ["scroll", "捲動", "滾動", "向下捲"], ws0, dotStar 1], "scroll") ]

/-- Model of `^(?:步驟|step)\s*\d*[.、:：]?\s*` (`re.I`): leading step-numbering markers. -/
def stepMarkerRx : Rx :=
  seqs [oneOf ["步驟", "step"], ws0, .rep pyDigit 0 false,
        .opt (.cls (fun c => c == '.' || c == '、' || c == ':' || c == '：')), ws0]

/-- Model of `_ZH_GOTO_VERBS` (anchored). -/
def zhGotoRx : Rx :=
  oneOf ["進入", "開啟", "前往", "瀏覽", "連到", "連至", "造訪", "訪問", "查看", "檢視", "打開"]

/-- Model of `_ZH_CLICK_VERBS` (anchored). -/
def zhClickRx : Rx :=
  oneOf ["點選", "點擊", "按下", "按", "點", "選按", "勾選", "展開", "收合", "切換"]

/-- Model of `_ZH_FILL_VERBS` (anchored). -/
def zhFillRx : Rx := oneOf ["輸入", "填入", "填寫", "鍵入"]

/-- Model of `_ZH_ASSERT_VERBS` (anchored). -/
def zhAssertRx : Rx := oneOf ["確認", "驗證", "確保", "檢查"]

/-- Model of `_ZH_BROWSE_KEYWORDS`: `(?:使用|利用|透過|以).*(?:開啟|瀏覽|檢視|查看|進入)`, searched. -/
def zhBrowseRx : Rx :=
  seqs [oneOf ["使用", "利用", "透過", "以"], .rep pyDot 0 false,
        oneOf ["開啟", "瀏覽", "檢視", "查看", "進入"]]

/-- Model of `[「「"'](.+?)[」」"']`: quoted-value extraction (searched). -/
def quotedRx : Rx := seqs [.cls openQuote, dotPlusL 1, .cls closeQuote]

/-- Model of `\*\*(.+?)\*\*`: bold markers removed by the grid-table cell flattener. -/
def boldRx : Rx := seqs [.lit false "**", dotPlusL 1, .lit false "**"]

/-! ## `_resolve_arrow_chains` -/

/-- The comma/semicolon fragment separators `[,，；;]`. -/
def isFragSep (c : Char) : Bool := c == ',' || c == '，' || c == '；' || c == ';'

/-- The leading-verb vocabulary of the chain resolver, in pattern order. -/
def arrowVerbs : List String :=
  ["點選", "點擊", "按下", "按", "點", "選按", "切換", "展開", "進入", "前往", "開啟", "瀏覽", "到"]

/-- Model of `^(點選|...|到)\s*` applied to the first arrow part: the ordered
alternation of plain literals reduces to first-prefix-in-order. -/
def arrowVerbMatch (first : List Char) : Option String :=
  arrowVerbs.find? (fun v => v.data.isPrefixOf first)

/-- Model of `[p.strip() for p in fragment.split("→") if p.strip()]`. -/
def arrowParts (f : List Char) : List (List Char) :=
  ((splitChars (fun c => c == '→') f).map stripL).filter (fun p => ¬p = [])

/-- The body of the per-fragment loop of `_resolve_arrow_chains`. -/
def fragResolve (frag : List Char) : List Char :=
  let f := stripL frag
  if ¬f.contains '→' then f
  else
    match arrowParts f with
    | [] => f.filter (fun c => ¬c == '→')
    | [_] => f.filter (fun c => ¬c == '→')
    | p1 :: p2 :: ps =>
      match arrowVerbMatch p1 with
      | some v => v.data ++ (p2 :: ps).getLast (by simp)
      | none => "點選".data ++ (p2 :: ps).getLast (by simp)

/-- Model of `_resolve_arrow_chains` from parse_docx.py. -/
def resolveArrowChains (text : String) : String :=
  if ¬text.data.contains '→' then text
  else String.mk (joinSep "，".data ((splitChars isFragSep text.data).map fragResolve))

/-! ## `infer_step` -/

/-- The text after `raw.strip()` and the step-marker sub + strip. -/
def strippedText (raw : String) : String :=
  pyStripS (anchoredSubEmpty stepMarkerRx (pyStripS raw))

/-- The text actually fed to the rule passes: arrow chains resolved when
present. -/
def arrowText (raw : String) : String :=
  let text := strippedText raw
  if text.data.contains '→' then resolveArrowChains text else text

/-- Model of `m.groups()[i]` as the scripts use it: every referenced group of every
first-pass pattern is bound on a match, so the default is never read. -/
def capD (caps : Caps) (n : Nat) : String := (getCap caps n).getD ""

/-- Model of `.strip("「」\"'")` applied to the fill-search captured value. -/
def stripQuoteChars (s : String) : String :=
  pyStripChars ['「', '」', '"', '\''] s

/-- Step construction from a first-pass match (the `if/elif` ladder on the
action tag inside `infer_step`). -/
def buildStep (rx : Rx) (act : String) (caps : Caps) (text : String) : Step :=
  if act == "fill" ∧ 2 ≤ numGroups rx then
    { action := "fill", target := pyStripS (capD caps 2), value := pyStripS (capD caps 1) }
  else if act == "fill_search" then
    { action := "fill", target := searchInputSelectors,
      value := stripQuoteChars (pyStripS (capD caps 1)) }
  else if act == "select" ∧ 2 ≤ numGroups rx then
    { action := "select", target := pyStripS (capD caps 2), value := pyStripS (capD caps 1) }
  else if act == "wait" then
    { action := "wait", target := pyStripS (capD caps 1) }
  else if act == "scroll" then
    { action := "scroll",
      target := if pyStripS (capD caps 1) ≠ "" then pyStripS (capD caps 1) else "500" }
  else
    { action := act,
      target := if 1 ≤ numGroups rx then pyStripS (capD caps 1) else text }

/-- First-pass dispatch: the ordered scan over `_STEP_ACTION_PATTERNS`. -/
def firstMatch : List (Rx × String) → String → Option Step
  | [], _ => none
  | (rx, act) :: rest, text =>
    match reMatch rx text with
    | some res => some (buildStep rx act res.caps text)
    | none => firstMatch rest text

/-- The fallback screenshot name: `re.sub(r'[^\w]', '_', text[:40])`
(single-character class, so the global sub is a character-wise map). -/
def sanitize40 (text : String) : String :=
  String.mk ((text.data.take 40).map (fun c => if pyWord c then c else '_'))

/-- Second-pass broad Chinese verb detection and the screenshot fallback. -/
def secondPass (text : String) : Step :=
  if (reMatch zhGotoRx text).isSome then
    { action := "goto", target := "/" }
  else if reSearchB zhBrowseRx text then
    { action := "goto", target := "/" }
  else if (reMatch zhClickRx text).isSome then
    let remainder := pyStripS (anchoredSubEmpty zhClickRx text)
    { action := "click", target := if remainder ≠ "" then "text=" ++ remainder else "body" }
  else if (reMatch zhFillRx text).isSome then
    let remainder := pyStripS (anchoredSubEmpty zhFillRx text)
    match reSearchCaps quotedRx remainder with
    | some caps =>
      { action := "fill", target := searchInputSelectors, value := capD caps 1 }
    | none =>
      { action := "fill", target := "input[type=text]", value := remainder }
  else if (reMatch zhAssertRx text).isSome then
    let remainder := pyStripS (anchoredSubEmpty zhAssertRx text)
    { action := "assert_visible",
      target := if remainder ≠ "" then "text=" ++ String.mk (remainder.data.take 60) else "body" }
  else
    { action := "screenshot", name := some (sanitize40 text) }

/-- Model of `{action: screenshot, name: "blank_step"}`: the empty-input sentinel. -/
def blankStep : Step := { action := "screenshot", name := some "blank_step" }

/-- Model of `infer_step` from parse_docx.py. -/
def inferStep (raw : String) : Step :=
  if strippedText raw = "" then blankStep
  else
    match firstMatch stepActionPatterns (arrowText raw) with
    | some step => step
    | none => secondPass (arrowText raw)

/-! ## Record extraction: pipe-table strategy -/

/-- Model of `dict(zip(headers, cells))[key]` lookup: zip truncates to the shorter
list, duplicate keys keep the last value, missing key is `none`. -/
def rowGetO (hs cs : List String) (key : String) : Option String :=
  ((hs.zip cs).reverse.find? (fun p => p.1 == key)).map (·.2)

/-- The steps-cell splitter `re.split(r"[;\n。；]", ...)` with strip and
empty-fragment filter, each fragment through `infer_step`. -/
def stepsSplitCells (raw : String) : List Step :=
  ((((pySplit (fun c => c == ';' || c == '\n' || c == '。' || c == '；') raw).map
    pyStripS).filter (fun s => s ≠ "")).map inferStep)

/-- Separator-row test: every nonempty cell matches `^[-:]+$`. -/
def sepCellRow (cells : List String) : Bool :=
  cells.all (fun c => c == "" || c.data.all (fun ch => ch == '-' || ch == ':'))

/-- One data row of the pipe table, appended to the accumulated cases. -/
def pipeDataRow (headers cells : List String) (cases : List TestCase) :
    List TestCase :=
  let id_val := (rowGetO headers cells "id").getD ((rowGetO headers cells "編號").getD "")
  let name_val := (rowGetO headers cells "name").getD ((rowGetO headers cells "test case").getD
    ((rowGetO headers cells "名稱").getD ((rowGetO headers cells "測試案例").getD "")))
  let steps_raw := (rowGetO headers cells "steps").getD ((rowGetO headers cells "步驟").getD
    ((rowGetO headers cells "step").getD ""))
  let expected := (rowGetO headers cells "expected").getD ((rowGetO headers cells "expected result").getD
    ((rowGetO headers cells "預期結果").getD ""))
  if name_val = "" then cases
  else
    let step_list := stepsSplitCells steps_raw
    cases ++ [{ id := if id_val ≠ "" then id_val else "TC-" ++ pad3 (cases.length + 1),
                name := name_val, description := "",
                steps := if step_list ≠ [] then step_list
                         else [{ action := "goto", target := "/" }],
                expected_result := expected }]

/-- Model of `_parse_table_cases` loop: header row, separator rows, data rows, with
the `break` on the first non-`|` line once inside the table. -/
def parseTableAux : List String → Bool → List String → List TestCase → List TestCase
  | [], _, _, cases => cases
  | line :: rest, in_table, headers, cases =>
    let l := pyStripS line
    if ¬startsWithS l "|" then
      if in_table then cases
      else parseTableAux rest in_table headers cases
    else
      let cells := (pySplit (fun c => c == '|') (pyStripChars ['|'] l)).map pyStripS
      if sepCellRow cells then parseTableAux rest in_table headers cases
      else if ¬in_table then parseTableAux rest true (cells.map toLowerS) cases
      else parseTableAux rest in_table headers (pipeDataRow headers cells cases)

/-- Model of `_parse_table_cases` from parse_docx.py. -/
def parseTableCases (lines : List String) : List TestCase :=
  parseTableAux lines false [] []

/-! ## Record extraction: grid-table strategy -/

/-- Model of `^\+[=\-]+`: a grid-table separator line. -/
def gridSepLine (line : String) : Bool :=
  match line.data with
  | '+' :: c :: _ => c == '=' || c == '-'
  | _ => false

/-- Collect the `| ... |` row blocks between grid separator lines. -/
def collectBlocks : List String → List String → Bool → List (List String)
  | [], current, _ => if current ≠ [] then [current] else []
  | line :: rest, current, in_grid =>
    if gridSepLine line then
      (if current ≠ [] then [current] else []) ++ collectBlocks rest [] true
    else if in_grid && startsWithS line "|" then
      collectBlocks rest (current ++ [line]) true
    else if in_grid && ¬startsWithS line "|" && ¬startsWithS line "+" then
      (if current ≠ [] then [current] else []) ++ collectBlocks rest [] false
    else
      collectBlocks rest current in_grid

/-- Model of `flatten_cell_lines`: join the nonempty stripped lines of one cell and
remove `**bold**` markers. -/
def flattenCellLines (cellLines : List String) : String :=
  pyStripS (reSubAll1 boldRx
    (joinS " " ((cellLines.map pyStripS).filter (fun l => l ≠ ""))))

/-- Model of `extract_row_cells`: reconstruct per-column text from the `|`-delimited
lines of one row block (column count from the first line). -/
def extractRowCells (rows : List String) : List String :=
  match rows with
  | [] => []
  | first :: _ =>
    let n := (pySplit (fun c => c == '|') (pyStripChars ['|'] first)).length
    ((List.range n).map (fun i =>
      rows.filterMap (fun l =>
        ((pySplit (fun c => c == '|') (pyStripChars ['|'] l)).get? i).map pyStripS))).map
      flattenCellLines

/-- Header-row vocabulary test of the grid parser. -/
def gridHeaderCell (c : String) : Bool :=
  subStr "個案編號".data c.data || subStr "項目序".data c.data ||
  subStr "測試目標".data c.data || subStr "測試紀錄".data c.data

/-- The per-block loop of `_parse_grid_table_cases`. -/
def parseGridBlocks : List (List String) → List TestCase → List TestCase
  | [], cases => cases
  | block :: rest, cases =>
    let cells := extractRowCells block
    if cells.length < 2 then parseGridBlocks rest cases
    else
      let first_cell := pyStripS ((cells.get? 0).getD "")
      if gridHeaderCell first_cell then parseGridBlocks rest cases
      else
        let nameC := (cells.get? 1).getD ""
        let steps_raw := (cells.get? 2).getD ""
        let expected := (cells.get? 3).getD ""
        if nameC = "" ∨ (match first_cell.data with
                         | c :: _ => c.isDigit
                         | [] => false) = false then
          parseGridBlocks rest cases
        else
          let processed := resolveArrowChains steps_raw
          let step_list := (((pySplit isFragSep processed).map pyStripS).filter
            (fun s => s ≠ "")).map inferStep
          let step_list := if step_list.any (fun st => st.action == "goto") then step_list
                           else { action := "goto", target := "/" } :: step_list
          let step_list := step_list ++
            [{ action := "screenshot", name := some ("TC-" ++ pad3 (cases.length + 1) ++ "_final") }]
          parseGridBlocks rest (cases ++
            [{ id := "TC-" ++ pad3 (cases.length + 1), name := nameC,
               description := steps_raw, steps := step_list,
               expected_result := expected }])

/-- Model of `str.splitlines()` (modelled on `\n`, the terminator pandoc emits). -/
def splitLines (s : String) : List String :=
  if s.data.isEmpty then []
  else
    let parts := splitChars (fun c => c == '\n') s.data
    (if parts.getLast? = some [] then parts.dropLast else parts).map String.mk

/-- Model of `_parse_grid_table_cases` from parse_docx.py. -/
def parseGridTableCases (md : String) : List TestCase :=
  parseGridBlocks (collectBlocks (splitLines md) [] false) []

/-! ## Record extraction: section-based strategy -/

/-- Model of `re.search(r"TC|test case|測試|案例", line, re.I)`. -/
def tcKeywordRx : Rx := oneOf ["TC", "test case", "測試", "案例"]

/-- Flush the case under construction (only when it has steps). -/
def flushCase (current : Option TestCase) (acc : List TestCase) : List TestCase :=
  match current with
  | some c => if c.steps ≠ [] then acc ++ [c] else acc
  | none => acc

/-- The line loop of the section-based strategy. -/
def sectionLoop : List String → Option TestCase → Nat → List TestCase → List TestCase
  | [], current, _, acc => flushCase current acc
  | line :: rest, current, counter, acc =>
    match reMatch tcHeaderRx line, reSearchB tcKeywordRx line with
    | some res, true =>
      let acc := flushCase current acc
      let counter := counter + 1
      let tc_num := (getCap res.caps 1).getD (toString counter)
      sectionLoop rest
        (some { id := "TC-" ++ pad3 (digitsToNat tc_num),
                name := pyStripS (capD res.caps 2), description := "",
                steps := [], expected_result := "" }) counter acc
    | _, _ =>
      match current with
      | none => sectionLoop rest none counter acc
      | some c =>
        match (match reMatch numberedStepRx line with
               | some r => some r
               | none => reMatch bulletStepRx line) with
        | some sres =>
          let step_text := pyStripS (capD sres.caps 1)
          match reMatch expectedRx step_text with
          | some eres =>
            sectionLoop rest (some { c with expected_result := pyStripS (capD eres.caps 1) })
              counter acc
          | none =>
            sectionLoop rest (some { c with steps := c.steps ++ [inferStep step_text] })
              counter acc
        | none =>
          match reSearchCaps expectedRx line with
          | some ecaps =>
            if ¬startsWithS line "#" then
              sectionLoop rest (some { c with expected_result := pyStripS (capD ecaps 1) })
                counter acc
            else sectionLoop rest (some c) counter acc
          | none => sectionLoop rest (some c) counter acc

/-- The section-based strategy over the whole line list. -/
def sectionCases (lines : List String) : List TestCase :=
  sectionLoop lines none 0 []

/-! ## Meta detection and `parse_markdown_to_cases` -/

/-- Suite meta record; `date` is `str(date.today())`, an environment input. -/
structure Meta where
  title : String := "Test Suite"
  base_url : String := ""
  environment : String := ""
  tested_by : String := ""
  date : String := ""
deriving DecidableEq, Repr

/-- Model of `(?:URL|base.?url|網址|網站)`, `re.I`, searched. -/
def urlKeyRx : Rx :=
  .alt (.lit true "URL")
    (.alt (seqs [.lit true "base", .opt (.cls pyDot), .lit true "url"])
      (.alt (.lit true "網址") (.lit true "網站")))

/-- Model of `(?:title|名稱|測試名|project)`, `re.I`, searched. -/
def titleKeyRx : Rx := oneOf ["title", "名稱", "測試名", "project"]

/-- Model of `(?:環境|environment|env)`, `re.I`, searched. -/
def envKeyRx : Rx := oneOf ["環境", "environment", "env"]

/-- Model of `(?:author|by|by|撰寫者|PM|SA)`, `re.I`, searched. -/
def byKeyRx : Rx := oneOf ["author", "by", "by", "撰寫者", "PM", "SA"]

/-- Model of `re.split(r"[：:\t]+", line, maxsplit=1)`: split once at the first run
of separator characters. -/
def splitOnceAux (isSep : Char → Bool) : List Char → Option (List Char × List Char)
  | [] => none
  | c :: rest =>
    if isSep c then some ([], rest.dropWhile isSep)
    else (splitOnceAux isSep rest).map (fun p => (c :: p.1, p.2))

/-- The two-element split used by the meta detector (`len(parts) == 2`). -/
def splitMetaLine (line : String) : Option (String × String) :=
  (splitOnceAux (fun c => c == '：' || c == ':' || c == '\t') line.data).map
    (fun p => (String.mk p.1, String.mk p.2))

/-- One line of the meta-detection block (the four keyword checks applied in
order; each may update the record). -/
def metaLine (m : Meta) (line : String) : Meta :=
  let m :=
    if reSearchB urlKeyRx line then
      match reSearchText urlRx line with
      | some u => if m.base_url = "" then { m with base_url := u } else m
      | none => m
    else m
  let m :=
    if reSearchB titleKeyRx line then
      match splitMetaLine line with
      | some p => { m with title := pyStripS p.2 }
      | none => m
    else m
  let m :=
    if reSearchB envKeyRx line then
      match splitMetaLine line with
      | some p => { m with environment := pyStripS p.2 }
      | none => m
    else m
  if reSearchB byKeyRx line then
    match splitMetaLine line with
    | some p => { m with tested_by := pyStripS p.2 }
    | none => m
  else m

/-- Meta detection over the first 20 lines. -/
def detectMeta (lines : List String) (base_url today : String) : Meta :=
  (lines.take 20).foldl metaLine
    { title := "Test Suite", base_url := base_url, environment := "",
      tested_by := "", date := today }

/-- The suite payload `{meta, test_cases}`. -/
structure Payload where
  meta : Meta
  test_cases : List TestCase
deriving DecidableEq, Repr

/-- The synthetic exploratory case emitted when no strategy found anything. -/
def exploratoryCase (meta : Meta) : TestCase :=
  { id := "TC-001", name := "Exploratory Test",
    description := "Parsed from unstructured Word document — please edit steps manually",
    steps := [{ action := "goto", target := meta.base_url },
              { action := "screenshot", name := some "home" }],
    expected_result := "Page loads without errors" }

/-- Model of `parse_markdown_to_cases` from parse_docx.py: meta detection, then the
three strategies in fixed order (pipe table, grid table, section-based),
first non-empty result winning, with the exploratory fallback. -/
def parse_markdown_to_cases (md : String) (base_url today : String) : Payload :=
  let lines := splitLines md
  let meta := detectMeta lines base_url today
  let table_cases := parseTableCases lines
  if table_cases ≠ [] then { meta := meta, test_cases := table_cases }
  else
    let grid_cases := parseGridTableCases md
    if grid_cases ≠ [] then { meta := meta, test_cases := grid_cases }
    else
      let sec := sectionCases lines
      if sec ≠ [] then { meta := meta, test_cases := sec }
      else { meta := meta, test_cases := [exploratoryCase meta] }

/-! ## The python-docx direct-read fallback in `main` of parse_docx.py -/

/-- A .docx table: rows of raw cell texts (what `cell.text` yields). -/
abbrev DocxTable := List (List String)

/-- The row loop of the python-docx fallback for one table. -/
def docxTableLoop : List (List String) → List String → List TestCase → List TestCase
  | [], _, acc => acc
  | row :: rest, headers, acc =>
    let cells := row.map (fun t => chReplace '\n' ' ' (pyStripS t))
    if cells.contains "項目序" || cells.contains "測試項目" then
      docxTableLoop rest (cells.map toLowerS) acc
    else if headers ≠ [] ∧ cells.length = headers.length then
      let name_val := (rowGetO headers cells "測試項目").getD
        ((rowGetO headers cells "test case").getD ((rowGetO headers cells "name").getD ""))
      let steps_raw := (rowGetO headers cells "操作步驟").getD
        ((rowGetO headers cells "steps").getD ((rowGetO headers cells "step").getD ""))
      let expected := (rowGetO headers cells "預期結果").getD
        ((rowGetO headers cells "expected result").getD ((rowGetO headers cells "expected").getD ""))
      if name_val = "" ∨ name_val = "測試項目" ∨ name_val = "test case" ∨ name_val = "name" then
        docxTableLoop rest headers acc
      else
        let step_list := stepsSplitCells steps_raw
        docxTableLoop rest headers (acc ++
          [{ id := "TC-" ++ pad3 (acc.length + 1), name := name_val,
             description := steps_raw,
             steps := if step_list ≠ [] then step_list
                      else [{ action := "goto", target := "/" }],
             expected_result := expected }])
    else docxTableLoop rest headers acc

/-- The whole python-docx fallback pass: every table, headers reset per
table, cases accumulated across tables. -/
def docxExtractCases (tables : List DocxTable) : List TestCase :=
  tables.foldl (fun acc tbl => docxTableLoop tbl [] acc) []

/-- Model of `main` of parse_docx.py after conversion: markdown parse, then the
python-docx pass; a non-empty docx result overwrites `test_cases`. -/
def mainPipeline (md : String) (base_url today : String)
    (tables : List DocxTable) : Payload :=
  let payload := parse_markdown_to_cases md base_url today
  let dcases := docxExtractCases tables
  if dcases ≠ [] then { payload with test_cases := dcases } else payload

/-! ## Claim theorems and supporting lemmas -/

/-- The four cascade-trigger actions are all interaction-classified. -/
theorem trigger_sub_interaction {a : String} (h : triggerActs.contains a = true) :
    interactionActs.contains a = true := by
  simp [triggerActs, List.contains_eq_any_beq, beq_iff_eq] at h
  simp [interactionActs, List.contains_eq_any_beq, beq_iff_eq]
  tauto

/-- The step loop emits exactly one StepResult per step. -/
theorem stepLoop_len (page : PageO) (dir tcid : String) :
    ∀ (steps : List Step) (idx : Nat) (iflag : Bool) (st : String) (err : Option String),
    ((stepLoop page dir tcid steps idx iflag st err).1).length = steps.length := by
  intro steps
  induction steps with
  | nil => intro idx iflag st err; simp [stepLoop]
  | cons s rest ih =>
    intro idx iflag st err
    simp only [stepLoop]
    split
    · simp [ih]
    · split
      · simp [ih]
      · simp [ih]

/-- With `interaction_failed` already set, every interaction-classified step
becomes the skip record and every other step is executed. -/
theorem stepLoop_flagTrue_get (page : PageO) (dir tcid : String) :
    ∀ (steps : List Step) (idx : Nat) (st : String) (err : Option String) (j : Nat) (sj : Step),
    steps[j]? = some sj →
    ((stepLoop page dir tcid steps idx true st err).1)[j]? =
      some (if interactionActs.contains sj.action then skipRecord (idx + j) sj
            else execute_step page sj dir tcid (idx + j)) := by
  intro steps
  induction steps with
  | nil => intro idx st err j sj h; simp at h
  | cons s rest ih =>
    intro idx st err j sj h
    cases j with
    | zero =>
      simp only [List.getElem?_cons_zero, Option.some.injEq] at h
      subst h
      simp only [stepLoop, Bool.true_and, Nat.add_zero]
      by_cases hint : s.action ∈ interactionActs
      · simp [hint]
      · by_cases hfb : (execute_step page s dir tcid idx).status = "failed"
        · simp [hint, hfb]
        · simp [hint, hfb]
    | succ n =>
      simp only [List.getElem?_cons_succ] at h
      simp only [stepLoop, Bool.true_and]
      have harith : idx + 1 + n = idx + (n + 1) := by omega
      have htail := ih (idx + 1) st err n sj h
      by_cases hint : s.action ∈ interactionActs
      · simpa [hint, harith] using htail
      · by_cases hfb : (execute_step page s dir tcid idx).status = "failed"
        · have htail2 := ih (idx + 1) "failed"
            (if pyFalsyOpt err then (execute_step page s dir tcid idx).error else err) n sj h
          simpa [hint, hfb, harith] using htail2
        · simpa [hint, hfb, harith] using htail

/-- If some step of the loop produced a failed result and its action is a
cascade trigger, every later step is skipped when interaction-classified and
executed otherwise. -/
theorem stepLoop_cascade (page : PageO) (dir tcid : String) :
    ∀ (steps : List Step) (idx : Nat) (iflag : Bool) (st : String) (err : Option String)
      (i j : Nat) (si sj : Step) (ri : StepResult),
    steps[i]? = some si → steps[j]? = some sj → i < j →
    ((stepLoop page dir tcid steps idx iflag st err).1)[i]? = some ri →
    ri.status = "failed" → triggerActs.contains si.action = true →
    ((stepLoop page dir tcid steps idx iflag st err).1)[j]? =
      some (if interactionActs.contains sj.action then skipRecord (idx + j) sj
            else execute_step page sj dir tcid (idx + j)) := by
  intro steps
  induction steps with
  | nil => intro _ _ _ _ i j si sj ri hi; intro h; simp at h
  | cons s rest ih =>
    intro idx iflag st err i j si sj ri hi hj hij hri hfail htrig
    obtain ⟨j', rfl⟩ : ∃ j', j = j' + 1 := ⟨j - 1, by omega⟩
    simp only [List.getElem?_cons_succ] at hj
    have harith : idx + 1 + j' = idx + (j' + 1) := by omega
    cases i with
    | zero =>
      simp only [List.getElem?_cons_zero, Option.some.injEq] at hi
      subst hi
      have htrigmem : s.action ∈ triggerActs := List.mem_of_elem_eq_true htrig
      have hintmem : s.action ∈ interactionActs :=
        List.mem_of_elem_eq_true (trigger_sub_interaction htrig)
      simp only [stepLoop, Bool.true_and] at hri ⊢
      by_cases hflag : iflag = true
      · -- head would be a skip record, whose status is "skipped", contradiction
        subst hflag
        simp only [Bool.true_and] at hri ⊢
        simp [hintmem] at hri ⊢
        rw [← hri] at hfail
        simp [skipRecord] at hfail
      · -- head executed and failed: the tail runs with the flag set
        have hflag' : iflag = false := by
          cases iflag
          · rfl
          · exact absurd rfl hflag
        subst hflag'
        simp only [Bool.false_and, Bool.false_eq_true, if_false] at hri ⊢
        by_cases hfb : (execute_step page s dir tcid idx).status = "failed"
        · simp only [hfb, if_true, beq_self_eq_true, List.getElem?_cons_succ] at hri ⊢
          simp [htrigmem]
          simpa [harith] using stepLoop_flagTrue_get page dir tcid rest (idx + 1) "failed"
            (if pyFalsyOpt err then (execute_step page s dir tcid idx).error else err) j' sj hj
        · -- head passed but hri says it failed: contradiction
          simp [hfb] at hri
          rw [← hri] at hfail
          exact absurd hfail hfb
    | succ i' =>
      simp only [List.getElem?_cons_succ] at hi
      simp only [stepLoop, Bool.true_and] at hri ⊢
      by_cases hskip : (iflag && interactionActs.contains s.action) = true
      · simp only [hskip, if_true, List.getElem?_cons_succ] at hri ⊢
        simpa [harith] using ih (idx + 1) _ _ _ i' j' si sj ri hi hj (by omega) hri hfail htrig
      · by_cases hfb : ((execute_step page s dir tcid idx).status == "failed") = true
        · simp only [hskip, Bool.false_eq_true, if_false] at hri ⊢
          simp only [hfb, if_true, List.getElem?_cons_succ] at hri ⊢
          simpa [harith] using ih (idx + 1) _ _ _ i' j' si sj ri hi hj (by omega) hri hfail htrig
        · simp only [hskip, Bool.false_eq_true, if_false] at hri ⊢
          simp only [hfb, Bool.false_eq_true, if_false, List.getElem?_cons_succ] at hri ⊢
          simpa [harith] using ih (idx + 1) _ _ _ i' j' si sj ri hi hj (by omega) hri hfail htrig

/-- Target resolution only touches `goto` steps. -/
theorem resolveStep_nongoto (base : String) (s : Step) (h : s.action ≠ "goto") :
    resolveStep base s = s := by
  simp [resolveStep, h]

def exOk : Except String Unit := .ok ()

def cexAssertPage : PageO :=
  { gotoR := fun _ => exOk, waitLoad := fun _ _ => exOk,
    clickR := fun _ _ _ => exOk, countR := fun _ => 0,
    fillR := fun _ _ _ => exOk,
    waitVis := fun sel _ => if sel == "#msg" then .error "not visible" else exOk,
    selOptR := fun _ _ _ => exOk, hoverR := fun _ _ => exOk, waitT := fun _ => exOk,
    evalJs := fun _ => exOk, innerTextR := fun _ _ => .ok "", urlR := "", titleR := "",
    shotR := fun _ => exOk }

def cexAssertCase : TestCase :=
  { id := "TC-002", name := "assert then click",
    steps := [{ action := "assert_visible", target := "#msg" },
              { action := "click", target := "text=ok" }] }

/-- Claim C1, counterexample.  The claim says a failed step of any
interaction-classified action - including assertions - starts the cascade.
In this environment the `assert_visible` step fails, yet the following
click is executed and passes rather than being marked skipped: only
click/fill/select/hover failures set `interaction_failed` in
`run_test_case`. -/
theorem c1_counterexample :
    ((runTestCase cexAssertPage "shots" "" cexAssertCase).steps.map
        (fun r => (r.action, r.status)) =
      [("assert_visible", "failed"), ("click", "passed")]) ∧
    interactionActs.contains "assert_visible" = true ∧
    ¬(((runTestCase cexAssertPage "shots" "" cexAssertCase).steps)[1]? =
      some (skipRecord 1 { action := "click", target := "text=ok" })) := by
  refine ⟨by decide, by decide, by decide⟩

/-- Claim C1 (amended).  In `run_test_case`, once a step whose action is
click, fill, select or hover produces a failed StepResult, every subsequent
interaction-classified step (click/fill/select/hover and the four
assertions) is marked skipped with the fixed reason "Skipped: prior step
failed" and is not executed, while every subsequent non-interaction step is
still executed through `execute_step`.  A failed assertion does not trigger
the cascade. -/
theorem c1_amended_theorem (page : PageO) (dir base : String) (tc : TestCase)
    (i j : Nat) (si sj : Step) (ri : StepResult)
    (hi : (resolveSteps base tc.steps)[i]? = some si)
    (hj : (resolveSteps base tc.steps)[j]? = some sj)
    (hij : i < j)
    (hri : ((runTestCase page dir base tc).steps)[i]? = some ri)
    (hfail : ri.status = "failed")
    (htrig : triggerActs.contains si.action = true) :
    ((runTestCase page dir base tc).steps)[j]? =
      some (if interactionActs.contains sj.action then skipRecord j sj
            else execute_step page sj dir tc.id j) := by
  have h := stepLoop_cascade page dir tc.id (resolveSteps base tc.steps) 0 false "passed" none
      i j si sj ri hi hj hij (by simpa [runTestCase] using hri) hfail htrig
  simpa [runTestCase] using h

/-- Environment for the cascade example: the `#btn` click raises, everything
else succeeds. -/
def cascadePage : PageO :=
  { gotoR := fun _ => exOk, waitLoad := fun _ _ => exOk,
    clickR := fun sel _ _ => if sel == "#btn" then .error "click timeout" else exOk,
    countR := fun _ => 0, fillR := fun _ _ _ => exOk, waitVis := fun _ _ => exOk,
    selOptR := fun _ _ _ => exOk, hoverR := fun _ _ => exOk, waitT := fun _ => exOk,
    evalJs := fun _ => exOk, innerTextR := fun _ _ => .ok "", urlR := "", titleR := "",
    shotR := fun _ => exOk }

/-- Model of `[goto, click(fails), fill, assert_visible, screenshot]`. -/
def cascadeCase : TestCase :=
  { id := "TC-001", name := "cascade",
    steps := [{ action := "goto", target := "/" },
              { action := "click", target := "#btn" },
              { action := "fill", target := "#q", value := "x" },
              { action := "assert_visible", target := "#r" },
              { action := "screenshot", name := some "final" }] }

/-- Witness for `c1_amended_theorem` at a concrete run: after the failing
click at index 1, the fill at index 2 is the skip record. -/
theorem c1_amended_witness :
    ((runTestCase cascadePage "shots" "http://e.com" cascadeCase).steps)[2]? =
      some (skipRecord 2 { action := "fill", target := "#q", value := "x" }) := by
  have h := c1_amended_theorem cascadePage "shots" "http://e.com" cascadeCase 1 2
    { action := "click", target := "#btn" } { action := "fill", target := "#q", value := "x" }
    (execute_step cascadePage { action := "click", target := "#btn" } "shots" "TC-001" 1)
    (by decide) (by decide) (by decide) (by decide) (by decide) (by decide)
  rw [if_pos (by decide)] at h
  exact h

/-- Target resolution preserves the action. -/
theorem resolveStep_action (base : String) (s : Step) :
    (resolveStep base s).action = s.action := by
  simp only [resolveStep]
  split
  · split
    · rfl
    · split <;> rfl
  · rfl

/-- Claim C2.  For a case with steps `[goto, click, fill, assert_visible,
screenshot]` where the goto's execution passes and the click's fails,
`run_test_case` returns statuses exactly
`[passed, failed, skipped, skipped, passed]`: fill and assert_visible are
the skip records (not executed), and the final screenshot is still executed
through `execute_step`. -/
theorem c2_cascade_example (page : PageO) (dir base : String) (tc : TestCase)
    (g c f a s : Step)
    (hsteps : tc.steps = [g, c, f, a, s])
    (hg : g.action = "goto") (hc : c.action = "click") (hf : f.action = "fill")
    (ha : a.action = "assert_visible") (hs : s.action = "screenshot")
    (h0 : (execute_step page (resolveStep base g) dir tc.id 0).status = "passed")
    (h1 : (execute_step page c dir tc.id 1).status = "failed")
    (h4 : (execute_step page s dir tc.id 4).status = "passed") :
    (runTestCase page dir base tc).steps.map (fun r => r.status) =
      ["passed", "failed", "skipped", "skipped", "passed"] ∧
    ((runTestCase page dir base tc).steps)[2]? = some (skipRecord 2 f) ∧
    ((runTestCase page dir base tc).steps)[3]? = some (skipRecord 3 a) ∧
    ((runTestCase page dir base tc).steps)[4]? =
      some (execute_step page s dir tc.id 4) := by
  have hres : resolveSteps base tc.steps = [resolveStep base g, c, f, a, s] := by
    simp [resolveSteps, hasGoto, hsteps, hg,
          resolveStep_nongoto base c (by simp [hc]),
          resolveStep_nongoto base f (by simp [hf]),
          resolveStep_nongoto base a (by simp [ha]),
          resolveStep_nongoto base s (by simp [hs])]
  have hga : (resolveStep base g).action = "goto" := by rw [resolveStep_action, hg]
  refine ⟨?_, ?_, ?_, ?_⟩ <;>
    simp [runTestCase, hres, stepLoop, h0, h1, h4, hga, hc, hf, ha, hs, skipRecord,
          interactionActs, triggerActs]

/-- Witness for `c2_cascade_example` in a concrete environment. -/
theorem c2_cascade_example_witness :
    (runTestCase cascadePage "shots" "http://e.com" cascadeCase).steps.map
        (fun r => r.status) =
      ["passed", "failed", "skipped", "skipped", "passed"] := by
  have h := c2_cascade_example cascadePage "shots" "http://e.com" cascadeCase
    { action := "goto", target := "/" } { action := "click", target := "#btn" }
    { action := "fill", target := "#q", value := "x" }
    { action := "assert_visible", target := "#r" }
    { action := "screenshot", name := some "final" }
    rfl rfl rfl rfl rfl rfl (by decide) (by decide) (by decide)
  exact h.1

/-- The loop status is only ever "passed" or "failed". -/
theorem stepLoop_status (page : PageO) (dir tcid : String) :
    ∀ (steps : List Step) (idx : Nat) (iflag : Bool) (st : String) (err : Option String),
    st = "passed" ∨ st = "failed" →
    ((stepLoop page dir tcid steps idx iflag st err).2.1 = "passed" ∨
     (stepLoop page dir tcid steps idx iflag st err).2.1 = "failed") := by
  intro steps
  induction steps with
  | nil => intro idx iflag st err h; simpa [stepLoop] using h
  | cons s rest ih =>
    intro idx iflag st err h
    simp only [stepLoop]
    split
    · exact ih _ _ _ _ h
    · split
      · exact ih _ _ _ _ (Or.inr rfl)
      · exact ih _ _ _ _ h

/-- A case result's status is exactly "passed" or "failed". -/
theorem runTestCase_status (page : PageO) (dir base : String) (tc : TestCase) :
    (runTestCase page dir base tc).status = "passed" ∨
    (runTestCase page dir base tc).status = "failed" := by
  simpa [runTestCase] using
    stepLoop_status page dir tc.id (resolveSteps base tc.steps) 0 false "passed" none
      (Or.inl rfl)

/-- Counting statuses that are all "passed"/"failed" partitions the list. -/
theorem count_partition (rs : List CaseResult)
    (h : ∀ r ∈ rs, r.status = "passed" ∨ r.status = "failed") :
    (rs.filter (fun r => r.status == "passed")).length +
      (rs.filter (fun r => r.status == "failed")).length = rs.length ∧
    (rs.filter (fun r => r.status == "skipped")).length = 0 := by
  induction rs with
  | nil => simp
  | cons r rest ih =>
    have hr := h r (by simp)
    have ht := ih (fun x hx => h x (by simp [hx]))
    rcases hr with hr | hr <;> simp [hr, ht.1, ht.2] <;> omega

/-- Every result of a run has status "passed" or "failed". -/
theorem runAll_status (page : PageO) (dir base : String) (cases : List TestCase) :
    ∀ r ∈ runAll page dir base cases, r.status = "passed" ∨ r.status = "failed" := by
  intro r hr
  simp [runAll] at hr
  obtain ⟨tc, _, rfl⟩ := hr
  exact runTestCase_status page dir base tc

/-- Claim C3.  For every run (any page environment, any test-case list, any
id filter), the emitted summary satisfies
`total = passed + failed + skipped`, and `total` equals the number of test
cases executed - one TestCaseResult per input TestCase after the filter. -/
theorem c3_summary_invariant (page : PageO) (dir base : String)
    (cases : List TestCase) (filt : Option String) :
    (buildSummary (runAll page dir base (applyFilter filt cases))).total =
      (buildSummary (runAll page dir base (applyFilter filt cases))).passed +
      (buildSummary (runAll page dir base (applyFilter filt cases))).failed +
      (buildSummary (runAll page dir base (applyFilter filt cases))).skipped ∧
    (buildSummary (runAll page dir base (applyFilter filt cases))).total =
      (applyFilter filt cases).length := by
  have hc := count_partition _ (runAll_status page dir base (applyFilter filt cases))
  constructor
  · simp only [buildSummary, hc.2]
    omega
  · simp [buildSummary, runAll]

/-- Claim C9.  A TestCaseResult's status is always exactly "passed" or
"failed", never "skipped" - only StepResults can be skipped - so the
case-level skipped count of every run summary is 0 and
`total = passed + failed`. -/
theorem c9_case_status_binary (page : PageO) (dir base : String) (cases : List TestCase) :
    ((runAll page dir base cases).all
      (fun r => r.status == "passed" || r.status == "failed")) = true ∧
    (buildSummary (runAll page dir base cases)).skipped = 0 ∧
    (buildSummary (runAll page dir base cases)).total =
      (buildSummary (runAll page dir base cases)).passed +
      (buildSummary (runAll page dir base cases)).failed := by
  have hall := runAll_status page dir base cases
  have hc := count_partition _ hall
  refine ⟨?_, hc.2, ?_⟩
  · rw [List.all_eq_true]
    intro r hr
    rcases hall r hr with h | h <;> simp [h]
  · simp only [buildSummary]
    omega

/-- Strings with equal character data are equal. -/
theorem stringDataInj (a b : String) (h : a.data = b.data) : a = b := by
  cases a
  cases b
  exact congrArg String.mk h

/-- The navigation-timeout constant of run_tests.py. -/
def NAVIGATION_TIMEOUT_MS : Nat := 15000

/-- The failure screenshot name differs from the step's success screenshot
name for every real action (they coincide only for the impossible action
name "FAIL"). -/
theorem failName_ne_shotName (tcid : String) (idx : Nat) (action : String)
    (h : action ≠ "FAIL") : failShotName tcid idx ≠ shotName tcid idx action := by
  intro heq
  apply h
  have hd := congrArg String.data heq
  simp only [failShotName, shotName, String.data_append, List.append_assoc] at hd
  have h1 := List.append_cancel_left hd
  have h2 := List.append_cancel_left h1
  have h3 := List.append_cancel_left h2
  have h4 : ("FAIL" : String).data ++ (".png" : String).data =
      action.data ++ (".png" : String).data := by
    simpa using h3
  have h5 := List.append_cancel_right h4
  exact (stringDataInj action "FAIL" h5.symm)

/-- Claim C8.  Whenever the `try` block of `execute_step` raises (any step,
any action, any environment), `execute_step` still returns - it yields the
failed StepResult that echoes the step, records the exception text, and
carries the distinctly-named failure screenshot exactly when that
best-effort screenshot call itself succeeded (its failure is swallowed).
No exception propagates to the caller: the equation exhibits the returned
record. -/
theorem c8_exec_failure_contained (page : PageO) (step : Step) (dir tcid : String)
    (idx : Nat) (e : String)
    (h : tryBlock page step dir tcid idx = .error e) :
    execute_step page step dir tcid idx =
      { index := idx, action := step.action, target := step.target,
        value := step.value, status := "failed",
        screenshot :=
          match page.shotR (dir ++ "/" ++ failShotName tcid idx) with
          | .ok _ => some (failShotName tcid idx)
          | .error _ => none,
        error := some e } ∧
    (step.action ≠ "FAIL" → failShotName tcid idx ≠ shotName tcid idx step.action) := by
  refine ⟨?_, failName_ne_shotName tcid idx step.action⟩
  simp [execute_step, h]

def cexHoverPage : PageO :=
  { gotoR := fun _ => exOk, waitLoad := fun _ _ => exOk,
    clickR := fun _ _ _ => exOk, countR := fun _ => 0,
    fillR := fun _ _ _ => exOk, waitVis := fun _ _ => exOk,
    selOptR := fun _ _ _ => exOk,
    hoverR := fun _ _ => .error "hover boom", waitT := fun _ => exOk,
    evalJs := fun _ => exOk, innerTextR := fun _ _ => .ok "", urlR := "", titleR := "",
    shotR := fun _ => exOk }

/-- Witness for `c8_exec_failure_contained`: a failing hover. -/
theorem c8_witness :
    execute_step cexHoverPage { action := "hover", target := "#m" } "shots" "TC-001" 3 =
      { index := 3, action := "hover", target := "#m", value := "", status := "failed",
        screenshot := some "TC-001_step_03_FAIL.png", error := some "hover boom" } ∧
    failShotName "TC-001" 3 ≠ shotName "TC-001" 3 "hover" := by
  have h := c8_exec_failure_contained cexHoverPage
    { action := "hover", target := "#m" } "shots" "TC-001" 3 "hover boom" rfl
  constructor
  · rw [h.1]
    decide
  · exact h.2 (by decide)

def cexGotoPage : PageO :=
  { gotoR := fun u => if u == "/login" then .error "raw root-relative target" else exOk,
    waitLoad := fun _ _ => exOk,
    clickR := fun _ _ _ => exOk, countR := fun _ => 0,
    fillR := fun _ _ _ => exOk, waitVis := fun _ _ => exOk,
    selOptR := fun _ _ _ => exOk, hoverR := fun _ _ => exOk, waitT := fun _ => exOk,
    evalJs := fun _ => exOk, innerTextR := fun _ _ => .ok "", urlR := "", titleR := "",
    shotR := fun _ => exOk }

/-- Claim C7, counterexample.  The claim says `execute_step` joins
root-relative goto targets against the configured base URL before
navigating.  `execute_step` has no base-URL parameter and passes the
target through unchanged: with a root-relative target "/login" the page
receives the raw "/login" (failing in this environment), even though the
joined absolute URL would have succeeded. -/
theorem c7_counterexample :
    (execute_step cexGotoPage { action := "goto", target := "/login" } "shots" "TC-001" 0).status
      = "failed" ∧
    (execute_step cexGotoPage { action := "goto", target := "/login" } "shots" "TC-001" 0).error
      = some "raw root-relative target" ∧
    cexGotoPage.gotoR ("http://e.com" ++ "/login") = .ok () := by
  refine ⟨by decide, by decide, rfl⟩

/-- Claim C7 (amended).  For a goto Step the navigation target is resolved
by `run_test_case` (not by `execute_step`): absolute URLs pass through
unchanged, root-relative paths are joined against the configured base URL,
anything else is replaced by the base URL root.  `execute_step` then
navigates to the step's (already resolved) target and waits for
network-idle up to the navigation timeout of 15000 ms. -/
theorem c7_amended_theorem (page : PageO) (dir tcid base : String) (idx : Nat) (t : String) :
    (startsWithS t "http" = true →
      (resolveStep base { action := "goto", target := t }).target = t) ∧
    (startsWithS t "http" = false → startsWithS t "/" = true →
      (resolveStep base { action := "goto", target := t }).target =
        rstripSlash base ++ "/" ++ lstripSlash t) ∧
    (startsWithS t "http" = false → startsWithS t "/" = false →
      (resolveStep base { action := "goto", target := t }).target =
        rstripSlash base ++ "/") ∧
    NAVIGATION_TIMEOUT_MS = 15000 ∧
    actionDispatch page { action := "goto", target := t } dir tcid idx =
      (page.gotoR t >>= fun _ =>
        page.waitLoad "networkidle" NAVIGATION_TIMEOUT_MS >>= fun _ => pure none) := by
  refine ⟨?_, ?_, ?_, rfl, ?_⟩
  · intro h1
    simp [resolveStep, h1]
  · intro h1 h2
    simp [resolveStep, h1, h2]
  · intro h1 h2
    simp [resolveStep, h1, h2]
  · simp [actionDispatch, NAVIGATION_TIMEOUT_MS]

/-- Witness for `c7_amended_theorem` at "/login" and a concrete page. -/
theorem c7_amended_witness :
    (resolveStep "http://e.com" { action := "goto", target := "/login" }).target =
      "http://e.com" ++ "/" ++ "login" ∧
    actionDispatch cexGotoPage { action := "goto", target := "http://e.com/login" }
        "shots" "TC-001" 0 =
      (cexGotoPage.gotoR "http://e.com/login" >>= fun _ =>
        cexGotoPage.waitLoad "networkidle" NAVIGATION_TIMEOUT_MS >>= fun _ => pure none) := by
  have h1 := (c7_amended_theorem cexGotoPage "shots" "TC-001" "http://e.com" 0 "/login").2.1
    (by decide) (by decide)
  have h2 := (c7_amended_theorem cexGotoPage "shots" "TC-001" "http://e.com" 0
    "http://e.com/login").2.2.2.2
  refine ⟨?_, h2⟩
  rw [h1]
  decide

/-- Claim C6.  `parse_markdown_to_cases` tries the three strategies in the
fixed order pipe-table, grid-table, section-based, and the first strategy
returning a non-empty case list is used exclusively: a non-empty pipe-table
result is returned as-is (grid and section contribute nothing), the grid
result is used only when the pipe table found nothing, and the section
result only when both tables found nothing. -/
theorem c6_extractor_priority (md : String) (base_url today : String) :
    (parseTableCases (splitLines md) ≠ [] →
      (parse_markdown_to_cases md base_url today).test_cases =
        parseTableCases (splitLines md)) ∧
    (parseTableCases (splitLines md) = [] → parseGridTableCases md ≠ [] →
      (parse_markdown_to_cases md base_url today).test_cases = parseGridTableCases md) ∧
    (parseTableCases (splitLines md) = [] → parseGridTableCases md = [] →
      sectionCases (splitLines md) ≠ [] →
      (parse_markdown_to_cases md base_url today).test_cases =
        sectionCases (splitLines md)) := by
  refine ⟨?_, ?_, ?_⟩
  · intro h1
    simp [parse_markdown_to_cases, h1]
  · intro h1 h2
    simp [parse_markdown_to_cases, h1, h2]
  · intro h1 h2 h3
    simp [parse_markdown_to_cases, h1, h2, h3]

def mdPipeEx : String := "| name | steps |\n|---|---|\n| Login | click login |"

/-- Witness for `c6_extractor_priority` on a concrete pipe table. -/
theorem c6_witness :
    parseTableCases (splitLines mdPipeEx) ≠ [] ∧
    (parse_markdown_to_cases mdPipeEx "" "2026-01-01").test_cases =
      parseTableCases (splitLines mdPipeEx) := by
  refine ⟨by decide, (c6_extractor_priority mdPipeEx "" "2026-01-01").1 (by decide)⟩

/-- Claim C10.  After the markdown strategies produced the payload, `main`
of parse_docx.py runs the python-docx table pass; whenever that pass yields
at least one case it replaces the whole `test_cases` list - regardless of
what the markdown strategies (including a successful pipe-table parse)
produced. -/
theorem c10_docx_override (md base_url today : String) (tables : List DocxTable)
    (h : docxExtractCases tables ≠ []) :
    (mainPipeline md base_url today tables).test_cases = docxExtractCases tables := by
  simp [mainPipeline, h]

def docxTablesEx : List DocxTable :=
  [[["項目序", "測試項目", "操作步驟", "預期結果"],
    ["1", "登入", "click login", "ok"]]]

/-- Witness for `c10_docx_override`: the docx pass overrides a markdown
input that itself contains a valid pipe table. -/
theorem c10_witness :
    docxExtractCases docxTablesEx ≠ [] ∧
    parseTableCases (splitLines mdPipeEx) ≠ [] ∧
    (mainPipeline mdPipeEx "" "2026-01-01" docxTablesEx).test_cases =
      docxExtractCases docxTablesEx ∧
    (mainPipeline mdPipeEx "" "2026-01-01" docxTablesEx).test_cases ≠
      parseTableCases (splitLines mdPipeEx) := by
  refine ⟨by decide, by decide, c10_docx_override _ _ _ _ (by decide), by decide⟩

/-- The action vocabulary producible by `infer_step`. -/
def validActions : List String :=
  ["goto", "click", "fill", "select", "hover", "wait", "screenshot", "scroll",
   "assert_visible", "assert_url", "assert_text"]

/-- The action actually stored for a first-pass tag (`fill_search` becomes
`fill`). -/
def canonAct (act : String) : String := if act == "fill_search" then "fill" else act

/-- The stored action of a first-pass step is the pattern tag, with
`fill_search` materialised as `fill`. -/
theorem buildStep_action (rx : Rx) (act : String) (caps : Caps) (text : String) :
    (buildStep rx act caps text).action = canonAct act := by
  simp only [buildStep]
  split_ifs <;> simp_all [canonAct]

/-- A first-pass match takes its action from some pattern of the list. -/
theorem firstMatch_action :
    ∀ (l : List (Rx × String)) (text : String) (st : Step),
    firstMatch l text = some st →
    ∃ p ∈ l, st.action = canonAct p.2 := by
  intro l
  induction l with
  | nil => intro text st h; simp [firstMatch] at h
  | cons p rest ih =>
    intro text st h
    obtain ⟨rx, act⟩ := p
    simp only [firstMatch] at h
    cases hm : reMatch rx text with
    | some res =>
      rw [hm] at h
      simp only [Option.some.injEq] at h
      exact ⟨(rx, act), by simp, by rw [← h]; exact buildStep_action rx act res.caps text⟩
    | none =>
      rw [hm] at h
      obtain ⟨q, hq, hact⟩ := ih text st h
      exact ⟨q, by simp [hq], hact⟩

/-- Every pattern tag yields an action of the fixed vocabulary. -/
theorem patterns_canon_valid :
    ∀ p ∈ stepActionPatterns, validActions.contains (canonAct p.2) = true := by
  decide

/-- The second pass also only yields actions of the fixed vocabulary. -/
theorem secondPass_action (text : String) :
    validActions.contains (secondPass text).action = true := by
  simp only [secondPass]
  split_ifs <;> first
    | rfl
    | (cases reSearchCaps quotedRx (pyStripS (anchoredSubEmpty zhFillRx text)) <;> rfl)

/-- No first-pass pattern and no second-pass verb family matches. -/
def noRuleMatches (text : String) : Bool :=
  (firstMatch stepActionPatterns text).isNone &&
  !(reMatch zhGotoRx text).isSome && !reSearchB zhBrowseRx text &&
  !(reMatch zhClickRx text).isSome && !(reMatch zhFillRx text).isSome &&
  !(reMatch zhAssertRx text).isSome

/-- The sanitized fallback name never exceeds 40 characters. -/
theorem sanitize40_len (t : String) : (sanitize40 t).data.length ≤ 40 := by
  simp only [sanitize40, List.length_map, List.length_take]
  omega

/-- Claim C4.  `infer_step` is total: it is a function, and for every input
its action is one of the fixed vocabulary.  An input that is empty or
whitespace-only after stripping the leading step-numbering markers yields
the `{action: screenshot, name: "blank_step"}` sentinel; an input matched
by no first-pass pattern and no second-pass verb family yields a screenshot
Step whose sanitized name has at most 40 characters - never an error. -/
theorem c4_infer_step_total (raw : String) :
    validActions.contains (inferStep raw).action = true ∧
    (strippedText raw = "" → inferStep raw = blankStep) ∧
    (strippedText raw ≠ "" → noRuleMatches (arrowText raw) = true →
      inferStep raw =
        { action := "screenshot", name := some (sanitize40 (arrowText raw)) } ∧
      (sanitize40 (arrowText raw)).data.length ≤ 40) := by
  refine ⟨?_, ?_, ?_⟩
  · by_cases hempty : strippedText raw = ""
    · simp only [inferStep, if_pos hempty]
      rfl
    · cases hfm : firstMatch stepActionPatterns (arrowText raw) with
      | some st =>
        have hst : inferStep raw = st := by simp [inferStep, hempty, hfm]
        rw [hst]
        obtain ⟨p, hp, hact⟩ := firstMatch_action _ _ _ hfm
        rw [hact]
        exact patterns_canon_valid p hp
      | none =>
        have hsp : inferStep raw = secondPass (arrowText raw) := by
          simp [inferStep, hempty, hfm]
        rw [hsp]
        exact secondPass_action _
  · intro h
    simp [inferStep, h]
  · intro hne hnm
    simp only [noRuleMatches, Bool.and_eq_true, Bool.not_eq_true'] at hnm
    obtain ⟨⟨⟨⟨⟨hfm, hgoto⟩, hbrowse⟩, hclick⟩, hfill⟩, hassert⟩ := hnm
    have hfmnone : firstMatch stepActionPatterns (arrowText raw) = none :=
      Option.isNone_iff_eq_none.mp hfm
    have hsp : inferStep raw = secondPass (arrowText raw) := by
      simp [inferStep, hne, hfmnone]
    rw [hsp]
    refine ⟨?_, sanitize40_len _⟩
    simp [secondPass, hgoto, hbrowse, hclick, hfill, hassert]

/-- Witness for `c4_infer_step_total` on whitespace and unmatched inputs. -/
theorem c4_witness :
    inferStep "   " = blankStep ∧
    inferStep "@@@" = { action := "screenshot", name := some "___" } ∧
    validActions.contains (inferStep "click home").action = true := by
  have h2 := (c4_infer_step_total "   ").2.1 (by decide)
  have h3 := (c4_infer_step_total "@@@").2.2 (by decide) (by decide)
  refine ⟨h2, ?_, (c4_infer_step_total "click home").1⟩
  rw [h3.1]
  decide

/-- Splitting always yields at least one fragment. -/
theorem splitChars_ne_nil (isSep : Char → Bool) (l : List Char) :
    splitChars isSep l ≠ [] := by
  induction l with
  | nil => simp [splitChars]
  | cons c rest ih =>
    simp only [splitChars]
    split
    · simp
    · split
      · simp
      · simp

/-- Split fragments contain no separator characters. -/
theorem splitChars_sepfree (isSep : Char → Bool) :
    ∀ (l : List Char) (p : List Char), p ∈ splitChars isSep l →
    ∀ c ∈ p, isSep c = false := by
  intro l
  induction l with
  | nil =>
    intro p hp c hc
    simp [splitChars] at hp
    subst hp
    simp at hc
  | cons d rest ih =>
    intro p hp c hc
    simp only [splitChars] at hp
    by_cases hd : isSep d = true
    · rw [if_pos hd] at hp
      rcases List.mem_cons.mp hp with h | h
      · subst h; simp at hc
      · exact ih p h c hc
    · rw [if_neg hd] at hp
      cases hsp : splitChars isSep rest with
      | nil => exact absurd hsp (splitChars_ne_nil isSep rest)
      | cons h0 t0 =>
        rw [hsp] at hp
        rcases List.mem_cons.mp hp with h | h
        · subst h
          rcases List.mem_cons.mp hc with h | h
          · subst h
            simpa using hd
          · exact ih h0 (by rw [hsp]; exact List.mem_cons_self h0 t0) c h
        · exact ih p (by rw [hsp]; exact List.mem_cons_of_mem h0 h) c hc

/-- A separator-free list splits into itself. -/
theorem splitChars_of_sepfree (isSep : Char → Bool) :
    ∀ (l : List Char), (∀ c ∈ l, isSep c = false) → splitChars isSep l = [l] := by
  intro l
  induction l with
  | nil => intro _; rfl
  | cons d rest ih =>
    intro h
    have hd : isSep d = false := h d (by simp)
    simp only [splitChars, hd, Bool.false_eq_true, if_false]
    rw [ih (fun c hc => h c (by simp [hc]))]

/-- Splitting after a separator-free prefix extends the first fragment. -/
theorem splitChars_append (isSep : Char → Bool) :
    ∀ (p x hd : List Char) (tl : List (List Char)),
    (∀ c ∈ p, isSep c = false) → splitChars isSep x = hd :: tl →
    splitChars isSep (p ++ x) = (p ++ hd) :: tl := by
  intro p
  induction p with
  | nil => intro x hd tl _ hx; simpa using hx
  | cons d prest ih =>
    intro x hd tl h hx
    have hd0 : isSep d = false := h d (by simp)
    have hrec := ih x hd tl (fun c hc => h c (by simp [hc])) hx
    simp only [List.cons_append, splitChars, hd0, Bool.false_eq_true, if_false]
    rw [List.append_eq, hrec]

/-- Splitting is a left inverse of joining separator-free fragments. -/
theorem splitChars_join (isSep : Char → Bool) (sep : Char) (hsep : isSep sep = true) :
    ∀ (ps : List (List Char)), ps ≠ [] →
    (∀ p ∈ ps, ∀ c ∈ p, isSep c = false) →
    splitChars isSep (joinSep [sep] ps) = ps := by
  intro ps
  induction ps with
  | nil => intro h; exact absurd rfl h
  | cons p rest ih =>
    intro _ hfree
    cases rest with
    | nil =>
      simp only [joinSep]
      exact splitChars_of_sepfree isSep p (hfree p (by simp))
    | cons q rest2 =>
      have htail : splitChars isSep (joinSep [sep] (q :: rest2)) = q :: rest2 :=
        ih (by simp) (fun x hx c hc => hfree x (by simp [hx]) c hc)
      have hx : splitChars isSep (sep :: joinSep [sep] (q :: rest2)) =
          [] :: q :: rest2 := by
        simp only [splitChars, hsep, if_true, htail]
      have := splitChars_append isSep p (sep :: joinSep [sep] (q :: rest2)) [] (q :: rest2)
        (hfree p (by simp)) hx
      simpa [joinSep] using this

/-- A character of a join is the separator or comes from some fragment. -/
theorem mem_joinSep (sep : Char) :
    ∀ (ps : List (List Char)) (c : Char), c ∈ joinSep [sep] ps →
    c = sep ∨ ∃ p ∈ ps, c ∈ p := by
  intro ps
  induction ps with
  | nil => intro c hc; simp [joinSep] at hc
  | cons p rest ih =>
    intro c hc
    cases rest with
    | nil =>
      simp only [joinSep] at hc
      exact Or.inr ⟨p, by simp, hc⟩
    | cons q rest2 =>
      simp only [joinSep] at hc
      rcases List.mem_append.mp hc with h | h
      · rcases List.mem_append.mp h with h1 | h1
        · exact Or.inr ⟨p, by simp, h1⟩
        · left
          simpa using h1
      · rcases ih c h with h2 | ⟨x, hx, hcx⟩
        · exact Or.inl h2
        · exact Or.inr ⟨x, by simp [hx], hcx⟩

/-- Stripping only removes characters. -/
theorem mem_stripL (l : List Char) (c : Char) (h : c ∈ stripL l) : c ∈ l := by
  simp only [stripL, stripWithL] at h
  rw [List.mem_reverse] at h
  have h2 := List.dropWhile_sublist (l := (l.dropWhile isPySpace).reverse) (p := isPySpace)
  have h3 := h2.mem h
  rw [List.mem_reverse] at h3
  exact (List.dropWhile_sublist (l := l) (p := isPySpace)).mem h3

/-- Split fragments only contain characters of the input. -/
theorem splitChars_mem_chars (isSep : Char → Bool) :
    ∀ (l : List Char) (p : List Char), p ∈ splitChars isSep l →
    ∀ c ∈ p, c ∈ l := by
  intro l
  induction l with
  | nil =>
    intro p hp c hc
    simp [splitChars] at hp
    subst hp
    simp at hc
  | cons d rest ih =>
    intro p hp c hc
    simp only [splitChars] at hp
    by_cases hd : isSep d = true
    · rw [if_pos hd] at hp
      rcases List.mem_cons.mp hp with h | h
      · subst h; simp at hc
      · exact List.mem_cons_of_mem d (ih p h c hc)
    · rw [if_neg hd] at hp
      cases hsp : splitChars isSep rest with
      | nil => exact absurd hsp (splitChars_ne_nil isSep rest)
      | cons h0 t0 =>
        rw [hsp] at hp
        rcases List.mem_cons.mp hp with h | h
        · subst h
          rcases List.mem_cons.mp hc with h | h
          · subst h; simp
          · exact List.mem_cons_of_mem d
              (ih h0 (by rw [hsp]; exact List.mem_cons_self h0 t0) c h)
        · exact List.mem_cons_of_mem d
            (ih p (by rw [hsp]; exact List.mem_cons_of_mem h0 h) c hc)

/-- Arrow parts contain only non-arrow characters of the fragment. -/
theorem arrowParts_mem_chars (f : List Char) (p : List Char)
    (hp : p ∈ arrowParts f) (c : Char) (hc : c ∈ p) :
    c ∈ f ∧ (c == '→') = false := by
  simp only [arrowParts, List.mem_filter, List.mem_map] at hp
  obtain ⟨⟨q, hq, rfl⟩, -⟩ := hp
  have hcq : c ∈ q := mem_stripL q c hc
  exact ⟨splitChars_mem_chars _ f q hq c hcq,
         splitChars_sepfree _ f q hq c hcq⟩

/-- The verb vocabulary contains no separators and no arrows. -/
theorem arrowVerbs_chars :
    ∀ v ∈ arrowVerbs, ∀ c ∈ v.data, isFragSep c = false ∧ (c == '→') = false := by
  decide

/-- The generic click verb contains no separators and no arrows. -/
theorem clickVerb_chars :
    ∀ c ∈ ("點選" : String).data, isFragSep c = false ∧ (c == '→') = false := by
  decide

/-- A resolved fragment is arrow-free, and each of its characters is either
no separator or already occurred in the fragment. -/
theorem fragResolve_chars (frag : List Char) (c : Char) (hc : c ∈ fragResolve frag) :
    (c == '→') = false ∧ (isFragSep c = false ∨ c ∈ frag) := by
  simp only [fragResolve] at hc
  by_cases harrow : (stripL frag).contains '→' = true
  · rw [if_neg (not_not_intro harrow)] at hc
    cases hparts : arrowParts (stripL frag) with
    | nil =>
      rw [hparts] at hc
      simp only [List.mem_filter] at hc
      refine ⟨by simpa using hc.2, Or.inr (mem_stripL frag c hc.1)⟩
    | cons p1 rest =>
      cases rest with
      | nil =>
        rw [hparts] at hc
        simp only [List.mem_filter] at hc
        refine ⟨by simpa using hc.2, Or.inr (mem_stripL frag c hc.1)⟩
      | cons p2 ps =>
        rw [hparts] at hc
        dsimp only at hc
        have hlastmem : (p2 :: ps).getLast (by simp) ∈ arrowParts (stripL frag) := by
          rw [hparts]
          exact List.mem_cons_of_mem p1 (List.getLast_mem (by simp))
        cases hvm : arrowVerbMatch p1 with
        | some v =>
          rw [hvm] at hc
          dsimp only at hc
          rcases List.mem_append.mp hc with h | h
          · have hv : v ∈ arrowVerbs := List.mem_of_find?_eq_some hvm
            have := arrowVerbs_chars v hv c h
            exact ⟨this.2, Or.inl this.1⟩
          · have := arrowParts_mem_chars (stripL frag) _ hlastmem c h
            exact ⟨this.2, Or.inr (mem_stripL frag c this.1)⟩
        | none =>
          rw [hvm] at hc
          dsimp only at hc
          rcases List.mem_append.mp hc with h | h
          · have := clickVerb_chars c h
            exact ⟨this.2, Or.inl this.1⟩
          · have := arrowParts_mem_chars (stripL frag) _ hlastmem c h
            exact ⟨this.2, Or.inr (mem_stripL frag c this.1)⟩
  · rw [if_pos harrow] at hc
    refine ⟨?_, Or.inr (mem_stripL frag c hc)⟩
    rcases Bool.eq_false_or_eq_true (c == '→') with h | h
    · exfalso
      have hceq : c = '→' := by simpa using h
      subst hceq
      exact harrow (by simpa using hc)
    · exact h

/-- Claim C5.  For every input, the output of `_resolve_arrow_chains`
contains no arrow character, and its number of comma/semicolon-separated
fragments equals the input's (no fragment is dropped, arrow or not).
Within an arrow-containing fragment whose chain has at least two parts and
whose first part has no recognised leading verb, the resolved fragment is
the generic click verb `點選` followed by the last arrow part. -/
theorem c5_arrow_chains (t : String) :
    (resolveArrowChains t).data.contains '→' = false ∧
    (splitChars isFragSep (resolveArrowChains t).data).length =
      (splitChars isFragSep t.data).length ∧
    (∀ frag p1 rest lp, frag ∈ splitChars isFragSep t.data →
      (stripL frag).contains '→' = true →
      arrowParts (stripL frag) = p1 :: rest →
      rest ≠ [] →
      arrowVerbMatch p1 = none →
      (p1 :: rest).getLast? = some lp →
      fragResolve frag = ("點選" : String).data ++ lp) := by
  have hparts_free : ∀ q ∈ (splitChars isFragSep t.data).map fragResolve,
      ∀ c ∈ q, isFragSep c = false := by
    intro q hq c hc
    obtain ⟨frag, hfrag, rfl⟩ := List.mem_map.mp hq
    rcases (fragResolve_chars frag c hc).2 with h | h
    · exact h
    · exact splitChars_sepfree isFragSep t.data frag hfrag c h
  refine ⟨?_, ?_, ?_⟩
  · by_cases hta : t.data.contains '→' = true
    · simp only [resolveArrowChains, if_neg (not_not_intro hta)]
      rcases Bool.eq_false_or_eq_true
        ((joinSep ("，" : String).data
          ((splitChars isFragSep t.data).map fragResolve)).contains '→') with h | h
      · exfalso
        have hmem : '→' ∈ joinSep ['，']
            ((splitChars isFragSep t.data).map fragResolve) := by simpa using h
        rcases mem_joinSep '，' _ '→' hmem with h2 | ⟨p, hp, hcp⟩
        · exact absurd h2 (by decide)
        · obtain ⟨frag, hfrag, rfl⟩ := List.mem_map.mp hp
          have := (fragResolve_chars frag '→' hcp).1
          simp at this
      · exact h
    · simp only [resolveArrowChains, if_pos hta]
      simpa using hta
  · by_cases hta : t.data.contains '→' = true
    · simp only [resolveArrowChains, if_neg (not_not_intro hta)]
      have hjoin := splitChars_join isFragSep '，' (by decide)
        ((splitChars isFragSep t.data).map fragResolve)
        (by simp [splitChars_ne_nil]) hparts_free
      show (splitChars isFragSep (joinSep ['，']
        ((splitChars isFragSep t.data).map fragResolve))).length = _
      rw [hjoin, List.length_map]
    · simp only [resolveArrowChains, if_pos hta]
  · intro frag p1 rest lp hfrag harrow hpartsEq hrest hvm hlp
    obtain ⟨r1, rs, rfl⟩ : ∃ r1 rs, rest = r1 :: rs := by
      cases rest with
      | nil => exact absurd rfl hrest
      | cons a b => exact ⟨a, b, rfl⟩
    simp only [fragResolve, if_neg (not_not_intro harrow), hpartsEq, hvm]
    have hlast : lp = (r1 :: rs).getLast (by simp) := by
      rw [List.getLast?_eq_getLast _ (by simp)] at hlp
      have h2 : (p1 :: r1 :: rs).getLast (by simp) = (r1 :: rs).getLast (by simp) :=
        List.getLast_cons (by simp)
      simp only [Option.some.injEq] at hlp
      rw [← hlp, h2]
    rw [hlast]

/-- Witness for `c5_arrow_chains`: the fragment `主選單→全宗瀏覽` resolves to
`點選全宗瀏覽`. -/
theorem c5_witness :
    fragResolve ("主選單→全宗瀏覽" : String).data =
      ("點選" : String).data ++ ("全宗瀏覽" : String).data := by
  exact (c5_arrow_chains "主選單→全宗瀏覽").2.2 ("主選單→全宗瀏覽" : String).data
    ("主選單" : String).data [("全宗瀏覽" : String).data] ("全宗瀏覽" : String).data
    (by decide) (by decide) (by decide) (by decide) (by decide) (by decide)
